import Mathlib

/-!
# Verification of the weatherpro multi-source reconciliation core

Shallow embedding of `src/services/etl.py` (merge strategies, reliability
tracking, forecast orchestration) and `src/api/weather_services.py`
(`interpolate_to_24h`, the Time-Series Normalizer).

Modelling conventions:
* Python floats are modelled by `ℚ` (the arithmetic in scope is exact:
  sums, means, weighted means, linear interpolation).
* A nullable numeric cell (a float column entry that may be NaN, or a dict
  entry that may be None/missing) is `Option ℚ`.
* A pandas DataFrame is a list of rows sharing a fixed schema.  The hourly
  and daily frames produced by the three fetch adapters
  (`weatherapi.py`, `openmeteo.py`, `openweather.py`) always carry a
  non-null `ts` column, so `ts : ℤ` (minutes since the epoch, UTC) is a
  mandatory field of merge-level rows.  The string columns
  (`weather_desc`, `source`) are dropped by every aggregation in scope
  (`mean(numeric_only=True)` / `sum(numeric_only=True)`) and no claim
  mentions them, so merge-level rows carry only the numeric columns.
* A current-conditions reading is `Option CurrentRec`: `none` models the
  empty dict `{}` (falsy) returned on fetch failure, `some c` a non-empty
  reading whose individual fields may still be null.
* Timestamps are minutes: one hour is 60, one day is 1440.
-/

namespace WeatherPro

/-- The three configured providers, in the insertion order of the
`RELIABILITY` dict and of `collect_sources` (etl.py lines 12-16, 41-47). -/
inductive Source
  | weatherapi
  | openmeteo
  | openweather
deriving DecidableEq, Repr

/-- Dict iteration order of `RELIABILITY` / `collect_sources`:
WeatherAPI, OpenMeteo, OpenWeather. -/
def sourceOrder : List Source := [.weatherapi, .openmeteo, .openweather]

def sourceName : Source → String
  | .weatherapi => "weatherapi"
  | .openmeteo => "openmeteo"
  | .openweather => "openweather"

/-- Initial reliability scores (etl.py lines 12-16). -/
def initReliability : Source → ℚ
  | .weatherapi => 1
  | .openmeteo => 9/10
  | .openweather => 1/2

/-- A non-empty current-conditions dict as consumed by the merge layer
(fields `temp`, `humidity`, `pressure`, `wind_speed`; the other keys the
adapters emit are never read by the code in scope except to be copied
wholesale, which structure equality models). -/
structure CurrentRec where
  temp : Option ℚ := none
  humidity : Option ℚ := none
  pressure : Option ℚ := none
  wind_speed : Option ℚ := none
  source : String := ""
deriving DecidableEq, Repr

/-- One row of an hourly DataFrame at merge level (numeric columns of the
frames built by the fetch adapters). -/
structure HRow where
  ts : ℤ
  temp : Option ℚ := none
  humidity : Option ℚ := none
  pressure : Option ℚ := none
  wind_speed : Option ℚ := none
  wind_deg : Option ℚ := none
  clouds : Option ℚ := none
  rain : Option ℚ := none
deriving DecidableEq, Repr

/-- One row of a daily DataFrame at merge level.  The union schema of the
three adapters: `temp_avg` only from weatherapi, `temp` only from the
openweather fallback path. -/
structure DRow where
  ts : ℤ
  temp_min : Option ℚ := none
  temp_max : Option ℚ := none
  temp_avg : Option ℚ := none
  temp : Option ℚ := none
  humidity : Option ℚ := none
  pressure : Option ℚ := none
  wind_speed : Option ℚ := none
  wind_deg : Option ℚ := none
  clouds : Option ℚ := none
  rain : Option ℚ := none
deriving DecidableEq, Repr

/-- The per-source fetch result assembled by `_safe_fetch` (etl.py 28-38):
`current` is `{}` or a reading, `hourly`/`daily` are a DataFrame or
None/missing (a failed `_safe_fetch` returns `{}`, i.e. every part absent). -/
structure Fetched where
  current : Option CurrentRec := none
  hourly : Option (List HRow) := none
  daily : Option (List DRow) := none

/-- The mapping produced by `collect_sources`: source name → fetch result. -/
def Results : Type := Source → Fetched

/-- The Merged Bundle (etl.py line 60): `current` starts as the empty dict,
`hourly`/`daily` start as None. -/
structure Merged where
  current : Option CurrentRec := none
  hourly : Option (List HRow) := none
  daily : Option (List DRow) := none

/-- `xs.append(v)` only for non-null `v`: the contribution of one optional
cell to a collection list. -/
def optToList : Option ℚ → List ℚ
  | none => []
  | some v => [v]

/-- `float(np.mean(xs)) if xs else None` (exact mean over `ℚ`). -/
def meanOpt (xs : List ℚ) : Option ℚ :=
  if xs.isEmpty then none else some (xs.sum / xs.length)

/-- Mean of the non-null cells of one column inside one group:
`groupby(...).mean(numeric_only=True)` skips NaN and yields NaN for an
all-NaN group. -/
def colMean (xs : List ℚ) : Option ℚ := meanOpt xs

/-- The priority scan of etl.py lines 63-68 / 144-149: first source in
`order` whose current dict is truthy with a non-null `temp`. -/
def bestCurrent (results : Results) : List Source → Option CurrentRec
  | [] => none
  | s :: rest =>
    match (results s).current with
    | some c => if c.temp.isSome then some c else bestCurrent results rest
    | none => bestCurrent results rest

/-- The priority scan for a series: first source in `order` whose frame is
a non-empty DataFrame (etl.py lines 87-92 / 111-116). -/
def firstNonEmpty {R : Type} (get : Source → Option (List R)) : List Source → Option (List R)
  | [] => none
  | s :: rest =>
    match get s with
    | some df => if df.isEmpty then firstNonEmpty get rest else some df
    | none => firstNonEmpty get rest

/-- A source's hourly frame if it is a DataFrame and non-empty, else `none`
(`isinstance(df, pd.DataFrame) and not df.empty`). -/
def activeHourly (results : Results) (s : Source) : Option (List HRow) :=
  (results s).hourly.bind fun df => if df.isEmpty then none else some df

/-- A source's daily frame if it is a DataFrame and non-empty, else `none`. -/
def activeDaily (results : Results) (s : Source) : Option (List DRow) :=
  (results s).daily.bind fun df => if df.isEmpty then none else some df

/-- The four per-field collection lists of the "avg" current branch
(etl.py lines 70-77), in source iteration order. -/
def collectAvg (results : Results) : List ℚ × List ℚ × List ℚ × List ℚ :=
  sourceOrder.foldl
    (fun acc s =>
      match (results s).current with
      | none => acc
      | some c =>
        (acc.1 ++ optToList c.temp, acc.2.1 ++ optToList c.humidity,
         acc.2.2.1 ++ optToList c.pressure, acc.2.2.2 ++ optToList c.wind_speed))
    ([], [], [], [])

/-- Keys of `groupby(..., sort=False)`: group keys in order of first
appearance.  `seen` accumulates the keys already emitted. -/
def dedupKeysAux (seen : List ℤ) : List ℤ → List ℤ
  | [] => []
  | t :: ts => if t ∈ seen then dedupKeysAux seen ts else t :: dedupKeysAux (t :: seen) ts

def dedupKeys (ts : List ℤ) : List ℤ := dedupKeysAux [] ts

/-- `pd.concat(dfs).groupby("ts", sort=False).mean(numeric_only=True).reset_index()`
for hourly frames. -/
def groupMeanH (rows : List HRow) : List HRow :=
  (dedupKeys (rows.map (·.ts))).map fun t =>
    let g := rows.filter fun r => r.ts = t
    { ts := t
      temp := colMean (g.filterMap (·.temp))
      humidity := colMean (g.filterMap (·.humidity))
      pressure := colMean (g.filterMap (·.pressure))
      wind_speed := colMean (g.filterMap (·.wind_speed))
      wind_deg := colMean (g.filterMap (·.wind_deg))
      clouds := colMean (g.filterMap (·.clouds))
      rain := colMean (g.filterMap (·.rain)) }

/-- Same for daily frames. -/
def groupMeanD (rows : List DRow) : List DRow :=
  (dedupKeys (rows.map (·.ts))).map fun t =>
    let g := rows.filter fun r => r.ts = t
    { ts := t
      temp_min := colMean (g.filterMap (·.temp_min))
      temp_max := colMean (g.filterMap (·.temp_max))
      temp_avg := colMean (g.filterMap (·.temp_avg))
      temp := colMean (g.filterMap (·.temp))
      humidity := colMean (g.filterMap (·.humidity))
      pressure := colMean (g.filterMap (·.pressure))
      wind_speed := colMean (g.filterMap (·.wind_speed))
      wind_deg := colMean (g.filterMap (·.wind_deg))
      clouds := colMean (g.filterMap (·.clouds))
      rain := colMean (g.filterMap (·.rain)) }

/-- `merge_sources(results, strategy)` (etl.py lines 53-133).  The
`dropna(how="all")` pre-filter before each concat is the identity here:
every row carries a non-null `ts`, so no row — hence no frame — is
entirely NA. -/
def merge_sources (results : Results) (strategy : String) : Merged :=
  let current :=
    if strategy = "best" then bestCurrent results sourceOrder
    else if strategy = "avg" then
      let c := collectAvg results
      some { temp := meanOpt c.1, humidity := meanOpt c.2.1,
             pressure := meanOpt c.2.2.1, wind_speed := meanOpt c.2.2.2,
             source := "avg" }
    else none
  let hourly :=
    if strategy = "best" then firstNonEmpty (activeHourly results) sourceOrder
    else if strategy = "avg" then
      let dfs := sourceOrder.filterMap (activeHourly results)
      if dfs.isEmpty then none else some (groupMeanH dfs.flatten)
    else none
  let daily :=
    if strategy = "best" then firstNonEmpty (activeDaily results) sourceOrder
    else if strategy = "avg" then
      let dfs := sourceOrder.filterMap (activeDaily results)
      if dfs.isEmpty then none else some (groupMeanD dfs.flatten)
    else none
  { current := current, hourly := hourly, daily := daily }

/-- Stable insertion of `s` into a descending-by-score list: placed before
the first strictly smaller element, after equals. -/
def insertDesc (rel : Source → ℚ) (s : Source) : List Source → List Source
  | [] => [s]
  | t :: ts => if rel t < rel s then s :: t :: ts else t :: insertDesc rel s ts

/-- `sorted(RELIABILITY.items(), key=lambda x: x[1], reverse=True)`
(etl.py line 142): the sources in descending score order; Python's sort is
stable, so ties keep dict insertion order. -/
def sortedSources (rel : Source → ℚ) : List Source :=
  sourceOrder.foldl (fun acc s => insertDesc rel s acc) []

/-- Modelled from the spec: `_normalize_daily(df, src)` is called at
etl.py lines 162, 231 and 247 but its definition is not among the provided
sources.  Per the spec (§4.4 step 2: "daily series receive a light
schema-normalization step — e.g., guaranteeing a temp_min/temp_max pair
exists, derived from a single average temperature if that is all the
source provides"; §6: daily records provide temp_min/temp_max "or a single
temp/temp_avg as fallback"), it fills a missing `temp_min`/`temp_max` from
the record's average temperature (`temp_avg`, else `temp`), leaving
present values unchanged.  The `src` argument only labels the frame. -/
def normalize_daily (df : List DRow) (_src : String) : List DRow :=
  df.map fun r =>
    let fallback := (r.temp_avg.orElse fun _ => r.temp)
    { r with
      temp_min := r.temp_min.orElse fun _ => fallback
      temp_max := r.temp_max.orElse fun _ => fallback }

/-- The source picked by the daily section of `merge_sources_dynamic`
(etl.py lines 158-163): first source in descending-reliability order with
a non-empty daily frame. -/
def firstDailySource (results : Results) : List Source → Option (Source × List DRow)
  | [] => none
  | s :: rest =>
    match activeDaily results s with
    | some df => some (s, df)
    | none => firstDailySource results rest

/-- `merge_sources_dynamic(results)` (etl.py lines 139-165), with the
module-global `RELIABILITY` passed explicitly as `rel`. -/
def merge_sources_dynamic (rel : Source → ℚ) (results : Results) : Merged :=
  let order := sortedSources rel
  { current := bestCurrent results order
    hourly := firstNonEmpty (activeHourly results) order
    daily := (firstDailySource results order).map fun p =>
      normalize_daily p.2 (sourceName p.1) }

@[simp] theorem except_map_ok {ε α β : Type} (f : α → β) (a : α) :
    Except.map f (Except.ok a : Except ε α) = Except.ok (f a) := rfl

@[simp] theorem except_map_error {ε α β : Type} (f : α → β) (e : ε) :
    Except.map f (Except.error e : Except ε α) = Except.error e := rfl

@[simp] theorem except_bind_ok {ε α β : Type} (a : α) (f : α → Except ε β) :
    Except.bind (Except.ok a) f = f a := rfl

@[simp] theorem except_bind_error {ε α β : Type} (e : ε) (f : α → Except ε β) :
    Except.bind (Except.error e) f = Except.error e := rfl

/-- `weighted_avg(values, weights)` (etl.py lines 186-194).  Returns None
when `values`/`weights` are empty or the *unfiltered* weights sum to
zero; otherwise filters the non-null pairs and, if any remain, hands them
to `np.average`, which is Σ(v·w)/Σ(w) but raises a ZeroDivisionError when
the filtered weights sum to zero (reachable when every non-null value
comes from a score-0 source while some score is non-zero). -/
def weighted_avg (values : List (Option ℚ)) (weights : List ℚ) :
    Except String (Option ℚ) :=
  if values.isEmpty ∨ weights.isEmpty ∨ weights.sum = 0 then .ok none
  else
    let pairs := (values.zip weights).filterMap fun p => p.1.map fun v => (v, p.2)
    if pairs.isEmpty then .ok none
    else if (pairs.map Prod.snd).sum = 0 then
      .error "Weights sum to zero, can't be normalized"
    else .ok (some ((pairs.map fun p => p.1 * p.2).sum / (pairs.map Prod.snd).sum))

/-- One step of the collection loop of the weighted current section
(etl.py 176-184): a source whose current is truthy with non-null `temp`
contributes all four fields (nullable) plus its score as weight. -/
def collectWStep (results : Results) (rel : Source → ℚ)
    (acc : List (Option ℚ) × List (Option ℚ) × List (Option ℚ) × List (Option ℚ) × List ℚ)
    (s : Source) :
    List (Option ℚ) × List (Option ℚ) × List (Option ℚ) × List (Option ℚ) × List ℚ :=
  match (results s).current with
  | some c =>
    if c.temp.isSome then
      (acc.1 ++ [c.temp], acc.2.1 ++ [c.humidity], acc.2.2.1 ++ [c.pressure],
       acc.2.2.2.1 ++ [c.wind_speed], acc.2.2.2.2 ++ [rel s])
    else acc
  | none => acc

/-- The collection loop of the weighted current section (etl.py 176-184),
over the sources in dict order. -/
def collectWeighted (results : Results) (rel : Source → ℚ) :
    List (Option ℚ) × List (Option ℚ) × List (Option ℚ) × List (Option ℚ) × List ℚ :=
  sourceOrder.foldl (collectWStep results rel) ([], [], [], [], [])

/-- Scaling step of the weighted hourly section (etl.py 210-212): only the
columns `temp`, `rain`, `wind_speed`, `humidity` are multiplied by the
score; `pressure`, `wind_deg`, `clouds` are left as they are. -/
def scaleHourly (w : ℚ) (r : HRow) : HRow :=
  { r with temp := r.temp.map (· * w), rain := r.rain.map (· * w),
           wind_speed := r.wind_speed.map (· * w), humidity := r.humidity.map (· * w) }

/-- Scaling step of the weighted daily section (etl.py 232-234): only
`temp_min`, `temp_max`, `rain`, `wind_speed` are multiplied by the score. -/
def scaleDaily (w : ℚ) (r : DRow) : DRow :=
  { r with temp_min := r.temp_min.map (· * w), temp_max := r.temp_max.map (· * w),
           rain := r.rain.map (· * w), wind_speed := r.wind_speed.map (· * w) }

/-- A row of the weighted hourly frame after
`groupby("ts", sort=False).sum(numeric_only=True)`: summation skips NaN
and an all-NaN group sums to 0, so every numeric cell is a plain value;
`weight` is the per-group sum of the weight column. -/
structure HSumRow where
  ts : ℤ
  temp : ℚ
  humidity : ℚ
  pressure : ℚ
  wind_speed : ℚ
  wind_deg : ℚ
  clouds : ℚ
  rain : ℚ
  weight : ℚ
deriving DecidableEq, Repr

def groupSumH (rows : List (HRow × ℚ)) : List HSumRow :=
  (dedupKeys (rows.map (·.1.ts))).map fun t =>
    let g := rows.filter fun r => r.1.ts = t
    { ts := t
      temp := (g.filterMap (·.1.temp)).sum
      humidity := (g.filterMap (·.1.humidity)).sum
      pressure := (g.filterMap (·.1.pressure)).sum
      wind_speed := (g.filterMap (·.1.wind_speed)).sum
      wind_deg := (g.filterMap (·.1.wind_deg)).sum
      clouds := (g.filterMap (·.1.clouds)).sum
      rain := (g.filterMap (·.1.rain)).sum
      weight := (g.map (·.2)).sum }

/-- Dropping the weight column turns the summed row back into an hourly
row; every numeric cell is non-null (it is a sum, 0 when the group had no
values). -/
def hsumToHRow (r : HSumRow) : HRow :=
  { ts := r.ts, temp := some r.temp, humidity := some r.humidity,
    pressure := some r.pressure, wind_speed := some r.wind_speed,
    wind_deg := some r.wind_deg, clouds := some r.clouds, rain := some r.rain }

/-- One float division of a grouped sum by the row's summed weight.  For a
zero group weight the quotient is not a number: pandas gives 0/0 → NaN
(the dividend of a divided column is a sum of value·score terms whose
scores — clamped non-negative by the tracker — are then all 0, so it is
0; ±inf from x/0 with x ≠ 0 would need a negative score and is
unreachable), modelled as a null cell. -/
def divCell (x w : ℚ) : Option ℚ :=
  if w = 0 then none else some (x / w)

/-- Post-grouping division (etl.py 221-223): if the global sum of the
weight column is non-zero, each of `temp`, `rain`, `wind_speed`,
`humidity` is divided row-wise by the row's summed weight (a zero-weight
group's cell becoming NaN); the other numeric columns are not divided.
Then the weight column is dropped (etl.py 224). -/
def divideHourly (grouped : List HSumRow) : List HRow :=
  if (grouped.map (·.weight)).sum = 0 then grouped.map hsumToHRow
  else grouped.map fun r =>
    { ts := r.ts, temp := divCell r.temp r.weight, humidity := divCell r.humidity r.weight,
      pressure := some r.pressure, wind_speed := divCell r.wind_speed r.weight,
      wind_deg := some r.wind_deg, clouds := some r.clouds,
      rain := divCell r.rain r.weight }

/-- A row of the weighted daily frame after the grouped sum. -/
structure DSumRow where
  ts : ℤ
  temp_min : ℚ
  temp_max : ℚ
  temp_avg : ℚ
  temp : ℚ
  humidity : ℚ
  pressure : ℚ
  wind_speed : ℚ
  wind_deg : ℚ
  clouds : ℚ
  rain : ℚ
  weight : ℚ
deriving DecidableEq, Repr

def groupSumD (rows : List (DRow × ℚ)) : List DSumRow :=
  (dedupKeys (rows.map (·.1.ts))).map fun t =>
    let g := rows.filter fun r => r.1.ts = t
    { ts := t
      temp_min := (g.filterMap (·.1.temp_min)).sum
      temp_max := (g.filterMap (·.1.temp_max)).sum
      temp_avg := (g.filterMap (·.1.temp_avg)).sum
      temp := (g.filterMap (·.1.temp)).sum
      humidity := (g.filterMap (·.1.humidity)).sum
      pressure := (g.filterMap (·.1.pressure)).sum
      wind_speed := (g.filterMap (·.1.wind_speed)).sum
      wind_deg := (g.filterMap (·.1.wind_deg)).sum
      clouds := (g.filterMap (·.1.clouds)).sum
      rain := (g.filterMap (·.1.rain)).sum
      weight := (g.map (·.2)).sum }

def dsumToDRow (r : DSumRow) : DRow :=
  { ts := r.ts, temp_min := some r.temp_min, temp_max := some r.temp_max,
    temp_avg := some r.temp_avg, temp := some r.temp, humidity := some r.humidity,
    pressure := some r.pressure, wind_speed := some r.wind_speed,
    wind_deg := some r.wind_deg, clouds := some r.clouds, rain := some r.rain }

/-- Post-grouping division for daily (etl.py 243-245): `temp_min`,
`temp_max`, `rain`, `wind_speed` only, row-wise by the summed weight (a
zero-weight group's cell becoming NaN, see `divCell`); then the weight
column is dropped (etl.py 246). -/
def divideDaily (grouped : List DSumRow) : List DRow :=
  if (grouped.map (·.weight)).sum = 0 then grouped.map dsumToDRow
  else grouped.map fun r =>
    { ts := r.ts, temp_min := divCell r.temp_min r.weight,
      temp_max := divCell r.temp_max r.weight, temp_avg := some r.temp_avg,
      temp := some r.temp, humidity := some r.humidity, pressure := some r.pressure,
      wind_speed := divCell r.wind_speed r.weight, wind_deg := some r.wind_deg,
      clouds := some r.clouds, rain := divCell r.rain r.weight }

/-- `merge_sources_weighted(results)` (etl.py lines 171-249), with the
module-global `RELIABILITY` passed explicitly as `rel`.  The current
section evaluates the four `weighted_avg` calls in dict-literal order
(temp, humidity, pressure, wind_speed); a ZeroDivisionError from
`np.average` escapes the function, modelled as `Except.error`.  As in
`merge_sources`, the `dropna(how="all")` pre-filters are the identity
because `ts` is never null. -/
def merge_sources_weighted (rel : Source → ℚ) (results : Results) :
    Except String Merged :=
  let c := collectWeighted results rel
  (weighted_avg c.1 c.2.2.2.2).bind fun t =>
  (weighted_avg c.2.1 c.2.2.2.2).bind fun hm =>
  (weighted_avg c.2.2.1 c.2.2.2.2).bind fun pr =>
  (weighted_avg c.2.2.2.1 c.2.2.2.2).map fun wd =>
  let current : CurrentRec :=
    { temp := t, humidity := hm, pressure := pr, wind_speed := wd, source := "weighted" }
  let dfsHourly := sourceOrder.filterMap fun s =>
    (activeHourly results s).map fun df => df.map fun r => (scaleHourly (rel s) r, rel s)
  let hourly :=
    if dfsHourly.isEmpty then none
    else some (divideHourly (groupSumH dfsHourly.flatten))
  let dfsDaily := sourceOrder.filterMap fun s =>
    (activeDaily results s).map fun df =>
      (normalize_daily df (sourceName s)).map fun r => (scaleDaily (rel s) r, rel s)
  let daily :=
    if dfsDaily.isEmpty then none
    else some (normalize_daily (divideDaily (groupSumD dfsDaily.flatten)) "avg")
  { current := some current, hourly := hourly, daily := daily }

/-! ## Reliability tracking (etl.py lines 255-297) -/

/-- The metrics compared by `update_reliability_multi`, in list order. -/
inductive Metric
  | temp
  | humidity
  | pressure
  | windSpeed
deriving DecidableEq, Repr

def defaultMetrics : List Metric := [.temp, .humidity, .pressure, .windSpeed]

def metricVal (m : Metric) (c : CurrentRec) : Option ℚ :=
  match m with
  | .temp => c.temp
  | .humidity => c.humidity
  | .pressure => c.pressure
  | .windSpeed => c.wind_speed

/-- The default thresholds dict (etl.py 259-265). -/
def threshold : Metric → ℚ
  | .temp => 3
  | .humidity => 10
  | .pressure => 5
  | .windSpeed => 2

/-- One source's contribution to the collection loop (etl.py 269-273):
`(src, value)` when its current dict is truthy with a non-null entry for
`m`, nothing otherwise. -/
def repOf (results : Results) (m : Metric) (s : Source) : Option (Source × ℚ) :=
  ((results s).current).bind fun c => (metricVal m c).map fun v => (s, v)

/-- The collection loop (etl.py 267-273): `(source, value)` pairs of the
sources whose current dict is truthy with a non-null entry for `m`, in
dict iteration order. -/
def reporters (results : Results) (m : Metric) : List (Source × ℚ) :=
  sourceOrder.filterMap (repOf results m)

/-- The process-wide mutable state: `RELIABILITY` and `DEVIATION_COUNT`. -/
structure RelState where
  rel : Source → ℚ
  dev : Source → ℕ

def initState : RelState := { rel := initReliability, dev := fun _ => 0 }

/-- Mean of the reported values for one metric (`float(np.mean(values))`,
exact over `ℚ`). -/
def metricMean (results : Results) (m : Metric) : ℚ :=
  ((reporters results m).map Prod.snd).sum / (reporters results m).length

/-- The loop body (etl.py 279-285) applied to one reporting source. -/
def applyDeviation (m : Metric) (avg : ℚ) (st : RelState) (p : Source × ℚ) : RelState :=
  if threshold m < |p.2 - avg| then
    { rel := Function.update st.rel p.1 (max (st.rel p.1 - 1/5) 0),
      dev := Function.update st.dev p.1 (st.dev p.1 + 1) }
  else
    { st with rel := Function.update st.rel p.1 (min (st.rel p.1 + 1/10) 2) }

/-- The per-metric body of `update_reliability_multi` (etl.py 267-285):
skip when fewer than two sources report; otherwise fold the deviation
rule over the reporting sources. -/
def updateMetric (m : Metric) (results : Results) (st : RelState) : RelState :=
  if (reporters results m).length < 2 then st
  else (reporters results m).foldl (applyDeviation m (metricMean results m)) st

/-- `update_reliability_multi(results)` with the default metric list and
thresholds, acting on explicit state. -/
def update_reliability_multi (results : Results) (st : RelState) : RelState :=
  defaultMetrics.foldl (fun st m => updateMetric m results st) st

/-- `prepare_forecast` (etl.py lines 303-326) minus the network fetch: the
strategy dispatch over the already-collected `results`, followed by the
unconditional reliability update.  Returns the bundle and the new state;
an exception escaping the weighted merge skips the update. -/
def prepare_forecast (results : Results) (strategy : String) (st : RelState) :
    Except String (Merged × RelState) :=
  let merged :=
    if strategy = "best" ∨ strategy = "avg" then Except.ok (merge_sources results strategy)
    else if strategy = "dynamic" then Except.ok (merge_sources_dynamic st.rel results)
    else if strategy = "weighted" then merge_sources_weighted st.rel results
    else Except.ok (merge_sources results "best")
  merged.map fun m => (m, update_reliability_multi results st)

/-! ## Time-Series Normalizer: `interpolate_to_24h`
(src/api/weather_services.py lines 9-51)

The input frame models a raw hourly DataFrame: a `ts` column whose
entries may fail to parse (`pd.to_datetime(..., errors="coerce")` turns
them into NaT, modelled `none`) and the three required numeric columns,
each of which may be absent from the frame altogether (the `hasX` flags
model `c in df.columns`).  `weather_desc` is only carried through by a
nearest-neighbour reindex and no claim mentions it, so it is not
modelled.  The presence of the `ts` column itself (checked at line 19-20)
is structural here: every claim in scope presupposes it. -/

/-- A raw input row. -/
structure NRow where
  ts : Option ℤ
  temp : Option ℚ := none
  rain : Option ℚ := none
  wind_speed : Option ℚ := none
deriving DecidableEq, Repr

/-- A raw input frame: column-presence flags plus rows. -/
structure NFrame where
  hasTemp : Bool
  hasRain : Bool
  hasWind : Bool
  rows : List NRow
deriving DecidableEq, Repr

/-- A row after timestamp coercion and `dropna(subset=["ts"])`. -/
structure PRow where
  ts : ℤ
  temp : Option ℚ := none
  rain : Option ℚ := none
  wind_speed : Option ℚ := none
deriving DecidableEq, Repr

/-- An output row (the frame after `reset_index`): `ts` plus the present
numeric columns. -/
structure ORow where
  ts : ℤ
  temp : Option ℚ := none
  rain : Option ℚ := none
  wind_speed : Option ℚ := none
deriving DecidableEq, Repr

structure OFrame where
  hasTemp : Bool
  hasRain : Bool
  hasWind : Bool
  rows : List ORow
deriving DecidableEq, Repr

/-- `pd.to_datetime(df["ts"], errors="coerce", utc=True)` followed by
`dropna(subset=["ts"])`. -/
def parseRows (rows : List NRow) : List PRow :=
  rows.filterMap fun r => r.ts.map fun t =>
    { ts := t, temp := r.temp, rain := r.rain, wind_speed := r.wind_speed }

/-- Minimum of a non-empty list of timestamps (`df.index.min()`). -/
def minTs (t : ℤ) (ts : List ℤ) : ℤ := ts.foldl min t

def maxTs (t : ℤ) (ts : List ℤ) : ℤ := ts.foldl max t

/-- `Timestamp.normalize()`: floor to the start of the UTC day
(timestamps in minutes, one day = 1440; `ℤ` division is floor division for
a positive divisor). -/
def floorDay (t : ℤ) : ℤ := 1440 * (t / 1440)

/-- First index holding a value, with that value. -/
def firstSomeIdx : List (Option ℚ) → Option (ℕ × ℚ)
  | [] => none
  | some v :: _ => some (0, v)
  | none :: xs => (firstSomeIdx xs).map fun p => (p.1 + 1, p.2)

/-- Last index holding a value, with that value. -/
def lastSomeIdx : List (Option ℚ) → Option (ℕ × ℚ)
  | [] => none
  | x :: xs =>
    match lastSomeIdx xs with
    | some p => some (p.1 + 1, p.2)
    | none => x.map fun v => (0, v)

/-- One cell of `Series.interpolate(method="linear")` on an equally spaced
index (which the reindexed hourly grid is): a NaN cell strictly between
two valid cells becomes the linear interpolant by position; a NaN cell
after the last valid cell takes the last valid value (the default
`limit_direction="forward"` pads forward); NaN cells before the first
valid cell are left NaN. -/
def interpAt (xs : List (Option ℚ)) (i : ℕ) : Option ℚ :=
  match xs.getD i none with
  | some v => some v
  | none =>
    match lastSomeIdx (xs.take i), firstSomeIdx (xs.drop (i + 1)) with
    | some p, some q =>
      some (p.2 + (q.2 - p.2) * ((i : ℚ) - p.1) / ((i + 1 + q.1 : ℕ) - (p.1 : ℚ)))
    | some p, none => some p.2
    | none, _ => none

def interpolateLinear (xs : List (Option ℚ)) : List (Option ℚ) :=
  (List.range xs.length).map (interpAt xs)

/-- `Series.ffill()`: each cell becomes the last valid value at or before
it. -/
def ffill (xs : List (Option ℚ)) : List (Option ℚ) :=
  (List.range xs.length).map fun i => (lastSomeIdx (xs.take (i + 1))).map Prod.snd

/-- `Series.bfill()`: each cell becomes the first valid value at or after
it. -/
def bfill (xs : List (Option ℚ)) : List (Option ℚ) :=
  (List.range xs.length).map fun i => (firstSomeIdx (xs.drop i)).map Prod.snd

/-- `.interpolate(method="linear").ffill().bfill()` (line 44). -/
def fillColumn (xs : List (Option ℚ)) : List (Option ℚ) :=
  bfill (ffill (interpolateLinear xs))

/-- `df[numeric_cols].reindex(full_range)` row lookup: the unique row
labelled `g`, or an all-NaN row when the label is absent.  (Uniqueness is
checked by the caller: pandas refuses to reindex a non-unique index.) -/
def reindexRows (P : List PRow) (grid : List ℤ) : List (Option PRow) :=
  grid.map fun g => P.find? fun r => r.ts = g

/-- The canonical hourly grid `pd.date_range(start_day, end_day, freq="h")`
as a list of minute timestamps. -/
def hourlyGrid (startDay endDay : ℤ) : List ℤ :=
  (List.range ((endDay - startDay) / 60 + 1).toNat).map fun i => startDay + 60 * Int.ofNat i

/-- The reindex/interpolate/reset-index pipeline of the success path
(weather_services.py lines 43-51) over an already-computed grid span. -/
def normalizeCore (f : NFrame) (P : List PRow) (startDay endDay : ℤ) : OFrame :=
  let grid := hourlyGrid startDay endDay
  let cells := reindexRows P grid
  let tempCol := fillColumn (cells.map fun c => c.bind (·.temp))
  let rainCol := fillColumn (cells.map fun c => c.bind (·.rain))
  let windCol := fillColumn (cells.map fun c => c.bind (·.wind_speed))
  { hasTemp := f.hasTemp, hasRain := f.hasRain, hasWind := f.hasWind,
    rows := (List.range grid.length).map fun i =>
      { ts := startDay + 60 * Int.ofNat i,
        temp := if f.hasTemp then tempCol.getD i none else none,
        rain := if f.hasRain then rainCol.getD i none else none,
        wind_speed := if f.hasWind then windCol.getD i none else none } }

/-- The success path of `interpolate_to_24h` (weather_services.py lines
27-51) once the guards have passed: day-aligned span (floor of the
earliest day to the latest day's start plus 23 hours), then the pipeline. -/
def normalizeOk (f : NFrame) (p0 : PRow) (rest : List PRow) : OFrame :=
  normalizeCore f (p0 :: rest)
    (floorDay (minTs p0.ts (rest.map (·.ts))))
    (floorDay (maxTs p0.ts (rest.map (·.ts))) + 23 * 60)

/-- `interpolate_to_24h(hourly_df)` (weather_services.py lines 9-51).
The two reachable explicit `ValueError`s keep their messages; the third
(`pd.isna(start)`, lines 31-32) is unreachable after `dropna`; the
duplicate-label `ValueError` is raised by pandas itself inside `reindex`
(line 43) whenever the timestamp index is non-unique. -/
def interpolate_to_24h (f : NFrame) : Except String OFrame :=
  if f.rows.isEmpty then .error "hourly_df rỗng hoặc không tồn tại"
  else
    match parseRows f.rows with
    | [] => .error "hourly_df không có dữ liệu thời gian hợp lệ"
    | p0 :: rest =>
      if ¬ (f.hasTemp ∨ f.hasRain ∨ f.hasWind) then
        .error "hourly_df thiếu các cột số bắt buộc: temp, rain, wind_speed"
      else if ¬ ((p0 :: rest).map (·.ts)).Nodup then
        .error "cannot reindex on an axis with duplicate labels"
      else .ok (normalizeOk f p0 rest)

/-! ## Theorems -/

/-- C7: "best" returns the first-priority source's current reading
whenever it has a non-null temperature. -/
theorem best_current_priority (results : Results) (c : CurrentRec) (v : ℚ)
    (hc : (results .weatherapi).current = some c) (hv : c.temp = some v) :
    (merge_sources results "best").current = some c := by
  simp [merge_sources, bestCurrent, sourceOrder, hc, hv]

/-- Fixture: a current reading for the priority witness. -/
def wCur : CurrentRec := { temp := some 25, source := "weatherapi" }

/-- Fixture: weatherapi reports a current reading, the others report
conflicting or missing data. -/
def wRes : Results := fun s =>
  match s with
  | .weatherapi => { current := some wCur }
  | .openmeteo => { current := some { temp := some 99, source := "openmeteo" } }
  | .openweather => { current := none }

theorem best_current_priority_witness :
    (wRes .weatherapi).current = some wCur ∧ wCur.temp = some 25 ∧
      (merge_sources wRes "best").current = some wCur :=
  ⟨rfl, rfl, best_current_priority wRes wCur 25 rfl rfl⟩

/-- The per-field list of non-null reporters of `m` among truthy current
dicts, in source order: the sources contributing to the "avg" mean. -/
def fieldReporters (results : Results) (m : Metric) : List ℚ :=
  sourceOrder.filterMap fun s => ((results s).current).bind (metricVal m)

theorem collectAvg_go (results : Results) (l : List Source) :
    ∀ acc : List ℚ × List ℚ × List ℚ × List ℚ,
    (l.foldl
      (fun acc s =>
        match (results s).current with
        | none => acc
        | some c =>
          (acc.1 ++ optToList c.temp, acc.2.1 ++ optToList c.humidity,
           acc.2.2.1 ++ optToList c.pressure, acc.2.2.2 ++ optToList c.wind_speed))
      acc) =
    (acc.1 ++ l.filterMap fun s => ((results s).current).bind (·.temp),
     acc.2.1 ++ l.filterMap fun s => ((results s).current).bind (·.humidity),
     acc.2.2.1 ++ l.filterMap fun s => ((results s).current).bind (·.pressure),
     acc.2.2.2 ++ l.filterMap fun s => ((results s).current).bind (·.wind_speed)) := by
  induction l with
  | nil => intro acc; simp
  | cons s t ih =>
    intro acc
    cases h : (results s).current with
    | none => simp [h, ih]
    | some c =>
      simp only [List.foldl_cons, h, List.filterMap_cons, Option.some_bind, ih]
      cases hc : c.temp <;> cases hh : c.humidity <;> cases hp : c.pressure <;>
        cases hw : c.wind_speed <;> simp [optToList]

/-- C10: under "avg" the merged current is always a record tagged
`source = "avg"` whose four metric fields are the arithmetic mean of the
non-null reporters (null when nobody reports) — never an absent current. -/
theorem avg_current_is_field_means (results : Results) :
    (merge_sources results "avg").current =
      some { temp := meanOpt (fieldReporters results .temp),
             humidity := meanOpt (fieldReporters results .humidity),
             pressure := meanOpt (fieldReporters results .pressure),
             wind_speed := meanOpt (fieldReporters results .windSpeed),
             source := "avg" } := by
  have h := collectAvg_go results sourceOrder ([], [], [], [])
  simp only [List.nil_append] at h
  simp [merge_sources, collectAvg, fieldReporters, metricVal, h]

/-- Fixture: the all-empty fetch result set (every source failed). -/
def emptyResults : Results := fun _ => {}

/-- The record of nulls the "avg"/"weighted" current sections build when
no source reports. -/
def nullCurrent (tag : String) : CurrentRec :=
  { temp := none, humidity := none, pressure := none, wind_speed := none, source := tag }

theorem merge_weighted_emptyResults (rel : Source → ℚ) :
    merge_sources_weighted rel emptyResults =
      Except.ok { current := some (nullCurrent "weighted"), hourly := none, daily := none } := by
  simp [merge_sources_weighted, collectWeighted, collectWStep, emptyResults, sourceOrder,
    weighted_avg, activeHourly, activeDaily, Except.bind, nullCurrent]

/-- C6 counterexample: with every source empty, the "avg" strategy's
current is NOT null/empty — it is a non-empty record of nulls tagged
"avg" (and "weighted" likewise merges without raising into a non-empty
record of nulls tagged "weighted"). -/
theorem all_empty_avg_current_not_empty :
    (merge_sources emptyResults "avg").current =
        some { temp := none, humidity := none, pressure := none,
               wind_speed := none, source := "avg" } ∧
      (merge_sources emptyResults "avg").current ≠ none ∧
      (merge_sources_weighted initReliability emptyResults).map Merged.current =
        Except.ok (some (nullCurrent "weighted")) ∧
      (merge_sources_weighted initReliability emptyResults).map Merged.current ≠
        Except.ok none := by
  refine ⟨by decide, by decide, ?_, ?_⟩ <;>
    rw [merge_weighted_emptyResults initReliability] <;> simp

theorem bestCurrent_emptyResults : ∀ l, bestCurrent emptyResults l = none := by
  intro l
  induction l with
  | nil => rfl
  | cons s t ih => simp [bestCurrent, emptyResults, ih]

theorem firstNonEmpty_of_none {R : Type} (get : Source → Option (List R))
    (h : ∀ s, get s = none) : ∀ l, firstNonEmpty get l = none := by
  intro l
  induction l with
  | nil => rfl
  | cons s t ih => simp [firstNonEmpty, h s, ih]

theorem firstDailySource_emptyResults : ∀ l, firstDailySource emptyResults l = none := by
  intro l
  induction l with
  | nil => rfl
  | cons s t ih => simp [firstDailySource, activeDaily, emptyResults, ih]

theorem updateMetric_emptyResults (m : Metric) (st : RelState) :
    updateMetric m emptyResults st = st := by
  have h : reporters emptyResults m = [] := by cases m <;> rfl
  simp [updateMetric, h]

theorem update_reliability_multi_emptyResults (st : RelState) :
    update_reliability_multi emptyResults st = st := by
  simp [update_reliability_multi, defaultMetrics, updateMetric_emptyResults]

/-- C6 (amended): an all-empty fetch result set never raises and yields,
for every strategy, an absent hourly and daily; the current is the empty
dict under "best" and "dynamic" but a non-empty record of all-null metric
fields tagged with the strategy name under "avg" and "weighted"; the
reliability state is left unchanged under every strategy. -/
theorem all_empty_merge_bundles (st : RelState) :
    (prepare_forecast emptyResults "best" st =
      Except.ok ({ current := none, hourly := none, daily := none }, st)) ∧
    (prepare_forecast emptyResults "dynamic" st =
      Except.ok ({ current := none, hourly := none, daily := none }, st)) ∧
    (prepare_forecast emptyResults "avg" st =
      Except.ok ({ current := some (nullCurrent "avg"),
                   hourly := none, daily := none }, st)) ∧
    (prepare_forecast emptyResults "weighted" st =
      Except.ok ({ current := some (nullCurrent "weighted"),
                   hourly := none, daily := none }, st)) ∧
    (∀ strategy : String,
      (prepare_forecast emptyResults strategy st).map Prod.snd = Except.ok st) := by
  have hah : ∀ s, activeHourly emptyResults s = none := fun s => rfl
  have had : ∀ s, activeDaily emptyResults s = none := fun s => rfl
  have hupd := update_reliability_multi_emptyResults st
  refine ⟨?_, ?_, ?_, ?_, ?_⟩
  · simp [prepare_forecast, merge_sources, bestCurrent_emptyResults,
      firstNonEmpty_of_none _ hah, firstNonEmpty_of_none _ had, hupd]
  · simp [prepare_forecast, merge_sources_dynamic, bestCurrent_emptyResults,
      firstNonEmpty_of_none _ hah, firstDailySource_emptyResults, hupd]
  · simp [prepare_forecast, merge_sources, collectAvg, emptyResults, sourceOrder, meanOpt,
      activeHourly, activeDaily, hupd, nullCurrent]
  · simp [prepare_forecast, merge_weighted_emptyResults, hupd]
  · intro strategy
    unfold prepare_forecast
    by_cases h1 : strategy = "best" ∨ strategy = "avg"
    · simp [h1, hupd]
    · by_cases h2 : strategy = "dynamic"
      · simp [h1, h2, hupd]
      · by_cases h3 : strategy = "weighted"
        · simp [h1, h2, h3, merge_weighted_emptyResults, hupd]
        · simp [h1, h2, h3, hupd]

/-! ### Reliability-update characterization (C3, C8) -/

theorem applyDeviation_ne (m : Metric) (avg : ℚ) (st : RelState) (p : Source × ℚ)
    (s : Source) (h : s ≠ p.1) :
    (applyDeviation m avg st p).rel s = st.rel s ∧
      (applyDeviation m avg st p).dev s = st.dev s := by
  unfold applyDeviation
  split <;> simp [Function.update_noteq h]

theorem foldl_applyDeviation_not_mem (m : Metric) (avg : ℚ)
    (pairs : List (Source × ℚ)) (s : Source) (h : s ∉ pairs.map Prod.fst) :
    ∀ st : RelState,
      (pairs.foldl (applyDeviation m avg) st).rel s = st.rel s ∧
        (pairs.foldl (applyDeviation m avg) st).dev s = st.dev s := by
  induction pairs with
  | nil => intro st; exact ⟨rfl, rfl⟩
  | cons p t ih =>
    intro st
    simp only [List.map_cons, List.mem_cons, not_or] at h
    obtain ⟨h1, h2⟩ := h
    have hs := applyDeviation_ne m avg st p s h1
    have ht := ih h2 (applyDeviation m avg st p)
    simp only [List.foldl_cons]
    exact ⟨ht.1.trans hs.1, ht.2.trans hs.2⟩

theorem foldl_applyDeviation_mem (m : Metric) (avg : ℚ)
    (pairs : List (Source × ℚ)) (s : Source) (v : ℚ)
    (hnd : (pairs.map Prod.fst).Nodup) (hmem : (s, v) ∈ pairs) :
    ∀ st : RelState,
      (pairs.foldl (applyDeviation m avg) st).rel s =
        (if threshold m < |v - avg| then max (st.rel s - 1/5) 0
         else min (st.rel s + 1/10) 2) ∧
      (pairs.foldl (applyDeviation m avg) st).dev s =
        (if threshold m < |v - avg| then st.dev s + 1 else st.dev s) := by
  induction pairs with
  | nil => cases hmem
  | cons p t ih =>
    intro st
    simp only [List.map_cons, List.nodup_cons] at hnd
    rcases List.mem_cons.mp hmem with heq | hmemt
    · have hps : p.1 = s := by rw [← heq]
      have hkey : s ∉ t.map Prod.fst := hps ▸ hnd.1
      have hrest := foldl_applyDeviation_not_mem m avg t s hkey (applyDeviation m avg st p)
      simp only [List.foldl_cons]
      rw [hrest.1, hrest.2, ← heq]
      unfold applyDeviation
      split <;> simp [Function.update_same]
    · have hkey : s ∈ t.map Prod.fst := List.mem_map.mpr ⟨(s, v), hmemt, rfl⟩
      have hne : s ≠ p.1 := fun h => hnd.1 (h ▸ hkey)
      have hs := applyDeviation_ne m avg st p s hne
      have ht := ih hnd.2 hmemt (applyDeviation m avg st p)
      simp only [List.foldl_cons]
      rw [ht.1, ht.2, hs.1, hs.2]
      exact ⟨rfl, rfl⟩

theorem repOf_fst (results : Results) (m : Metric) (s : Source)
    (p : Source × ℚ) (h : repOf results m s = some p) : p.1 = s := by
  unfold repOf at h
  cases h1 : (results s).current with
  | none => rw [h1] at h; cases h
  | some c =>
    rw [h1] at h
    cases h2 : metricVal m c with
    | none => simp [h2] at h
    | some v => simp [h2] at h; rw [← h]

theorem reporters_keys_sublist (results : Results) (m : Metric) :
    ∀ l : List Source, ((l.filterMap (repOf results m)).map Prod.fst).Sublist l := by
  intro l
  induction l with
  | nil => simp
  | cons s t ih =>
    cases h : repOf results m s with
    | none => simpa [List.filterMap_cons, h] using ih.cons s
    | some p =>
      simp only [List.filterMap_cons, h, List.map_cons, repOf_fst results m s p h]
      exact ih.cons₂ s

theorem reporters_keys_nodup (results : Results) (m : Metric) :
    ((reporters results m).map Prod.fst).Nodup :=
  (reporters_keys_sublist results m sourceOrder).nodup (by decide)

theorem updateMetric_skip (m : Metric) (results : Results) (st : RelState)
    (h : (reporters results m).length < 2) : updateMetric m results st = st := by
  unfold updateMetric
  simp [h]

theorem updateMetric_of_mem (m : Metric) (results : Results) (st : RelState)
    (s : Source) (v : ℚ) (hmem : (s, v) ∈ reporters results m)
    (hlen : 2 ≤ (reporters results m).length) :
    (updateMetric m results st).rel s =
      (if threshold m < |v - metricMean results m| then max (st.rel s - 1/5) 0
       else min (st.rel s + 1/10) 2) ∧
    (updateMetric m results st).dev s =
      (if threshold m < |v - metricMean results m| then st.dev s + 1 else st.dev s) := by
  unfold updateMetric
  rw [if_neg (by omega)]
  exact foldl_applyDeviation_mem m (metricMean results m) (reporters results m) s v
    (reporters_keys_nodup results m) hmem st

theorem updateMetric_not_reporting (m : Metric) (results : Results) (st : RelState)
    (s : Source) (h : s ∉ (reporters results m).map Prod.fst) :
    (updateMetric m results st).rel s = st.rel s ∧
      (updateMetric m results st).dev s = st.dev s := by
  unfold updateMetric
  split
  · exact ⟨rfl, rfl⟩
  · exact foldl_applyDeviation_not_mem m (metricMean results m) (reporters results m) s h st

/-- Fixture: the spec's §8 deviation scenario, temperatures
A = 30.0, B = 30.5, C = 45.0 (A, B, C in source-priority order). -/
def scenarioResults : Results := fun s =>
  match s with
  | .weatherapi => { current := some { temp := some 30, source := "weatherapi" } }
  | .openmeteo => { current := some { temp := some (61/2), source := "openmeteo" } }
  | .openweather => { current := some { temp := some 45, source := "openweather" } }

theorem scenario_reporters :
    reporters scenarioResults .temp =
      [(.weatherapi, 30), (.openmeteo, 61/2), (.openweather, 45)] := rfl

theorem scenario_mean : metricMean scenarioResults .temp = 211/6 := by
  unfold metricMean
  rw [scenario_reporters]
  norm_num

/-- Evaluation of the spec's §8 scenario on the embedded update: the mean
is 211/6 and all three deviations (31/6, 14/3, 59/6) exceed 3, so every
score drops by 0.2 and every counter increments. -/
theorem scenario_state :
    (update_reliability_multi scenarioResults initState).rel .weatherapi = 4/5 ∧
    (update_reliability_multi scenarioResults initState).rel .openmeteo = 7/10 ∧
    (update_reliability_multi scenarioResults initState).rel .openweather = 3/10 ∧
    (update_reliability_multi scenarioResults initState).dev .weatherapi = 1 ∧
    (update_reliability_multi scenarioResults initState).dev .openmeteo = 1 ∧
    (update_reliability_multi scenarioResults initState).dev .openweather = 1 := by
  have hsk1 : updateMetric .humidity scenarioResults = fun st => st := by
    funext st
    exact updateMetric_skip _ _ _
      (by rw [show reporters scenarioResults .humidity = [] from rfl]; decide)
  have hsk2 : updateMetric .pressure scenarioResults = fun st => st := by
    funext st
    exact updateMetric_skip _ _ _
      (by rw [show reporters scenarioResults .pressure = [] from rfl]; decide)
  have hsk3 : updateMetric .windSpeed scenarioResults = fun st => st := by
    funext st
    exact updateMetric_skip _ _ _
      (by rw [show reporters scenarioResults .windSpeed = [] from rfl]; decide)
  have hred : update_reliability_multi scenarioResults initState =
      updateMetric .temp scenarioResults initState := by
    simp [update_reliability_multi, defaultMetrics, hsk1, hsk2, hsk3]
  have c1 : (threshold .temp < |(30:ℚ) - metricMean scenarioResults .temp|) = True := by
    rw [scenario_mean,
      show |(30:ℚ) - 211/6| = 31/6 from by rw [abs_of_nonpos (by norm_num)]; norm_num]
    simp [threshold]
    norm_num
  have c2 : (threshold .temp < |(61/2:ℚ) - metricMean scenarioResults .temp|) = True := by
    rw [scenario_mean,
      show |(61/2:ℚ) - 211/6| = 14/3 from by rw [abs_of_nonpos (by norm_num)]; norm_num]
    simp [threshold]
    norm_num
  have c3 : (threshold .temp < |(45:ℚ) - metricMean scenarioResults .temp|) = True := by
    rw [scenario_mean,
      show |(45:ℚ) - 211/6| = 59/6 from by rw [abs_of_nonneg (by norm_num)]; norm_num]
    simp [threshold]
    norm_num
  rw [hred]
  unfold updateMetric
  rw [if_neg (by rw [scenario_reporters]; decide)]
  rw [scenario_reporters]
  simp only [List.foldl_cons, List.foldl_nil, applyDeviation, c1, c2, c3, if_true]
  simp [Function.update, initState, initReliability]
  norm_num

/-- C3 counterexample: in the spec's scenario the mean is 211/6 ≈ 35.17
and ALL THREE sources deviate beyond the 3.0 threshold
(|30 − 211/6| = 31/6 > 3, |30.5 − 211/6| = 14/3 > 3), so A and B do NOT
gain 0.1: every score drops by 0.2 and every counter increments. -/
theorem reliability_scenario_counterexample :
    ((update_reliability_multi scenarioResults initState).rel .weatherapi = 4/5 ∧
     (update_reliability_multi scenarioResults initState).rel .openmeteo = 7/10 ∧
     (update_reliability_multi scenarioResults initState).rel .openweather = 3/10) ∧
    (update_reliability_multi scenarioResults initState).rel .weatherapi ≠ 11/10 ∧
    (update_reliability_multi scenarioResults initState).rel .openmeteo ≠ 1 ∧
    ((update_reliability_multi scenarioResults initState).dev .weatherapi = 1 ∧
     (update_reliability_multi scenarioResults initState).dev .openmeteo = 1 ∧
     (update_reliability_multi scenarioResults initState).dev .openweather = 1) := by
  obtain ⟨h1, h2, h3, h4, h5, h6⟩ := scenario_state
  refine ⟨⟨h1, h2, h3⟩, ?_, ?_, h4, h5, h6⟩
  · rw [h1]; norm_num
  · rw [h2]; norm_num

/-- C3 (amended): the general update rule as specified — skip a metric
with fewer than two reporters; a reporting source's score moves by the
threshold comparison against the cross-source mean with clamping, its
counter increments exactly on deviation; non-reporters are untouched.
In the spec's scenario {A: 30.0, B: 30.5, C: 45.0} all three deviations
(31/6, 14/3, 59/6) exceed 3.0, so all three scores drop by 0.2 and all
three counters increment. -/
theorem update_reliability_characterization :
    (∀ (m : Metric) (results : Results) (st : RelState),
      (reporters results m).length < 2 → updateMetric m results st = st) ∧
    (∀ (m : Metric) (results : Results) (st : RelState) (s : Source) (v : ℚ),
      (s, v) ∈ reporters results m → 2 ≤ (reporters results m).length →
      (updateMetric m results st).rel s =
        (if threshold m < |v - metricMean results m| then max (st.rel s - 1/5) 0
         else min (st.rel s + 1/10) 2) ∧
      (updateMetric m results st).dev s =
        (if threshold m < |v - metricMean results m| then st.dev s + 1 else st.dev s)) ∧
    (∀ (m : Metric) (results : Results) (st : RelState) (s : Source),
      s ∉ (reporters results m).map Prod.fst →
      (updateMetric m results st).rel s = st.rel s ∧
        (updateMetric m results st).dev s = st.dev s) ∧
    ((update_reliability_multi scenarioResults initState).rel .weatherapi = 4/5 ∧
     (update_reliability_multi scenarioResults initState).rel .openmeteo = 7/10 ∧
     (update_reliability_multi scenarioResults initState).rel .openweather = 3/10 ∧
     (update_reliability_multi scenarioResults initState).dev .weatherapi = 1 ∧
     (update_reliability_multi scenarioResults initState).dev .openmeteo = 1 ∧
     (update_reliability_multi scenarioResults initState).dev .openweather = 1) :=
  ⟨updateMetric_skip, updateMetric_of_mem, updateMetric_not_reporting, scenario_state⟩

theorem update_reliability_characterization_witness :
    ((Source.openweather, (45 : ℚ)) ∈ reporters scenarioResults .temp) ∧
    2 ≤ (reporters scenarioResults .temp).length ∧
    (updateMetric .temp scenarioResults initState).rel .openweather =
      (if threshold .temp < |(45 : ℚ) - metricMean scenarioResults .temp|
       then max (initState.rel .openweather - 1/5) 0
       else min (initState.rel .openweather + 1/10) 2) :=
  ⟨by rw [scenario_reporters]; simp, by rw [scenario_reporters]; decide,
   (update_reliability_characterization.2.1 .temp scenarioResults initState
      .openweather 45 (by rw [scenario_reporters]; simp) (by rw [scenario_reporters]; decide)).1⟩

/-! ### Reliability monotonicity (C8) -/

/-- A source whose reported values always fall within the per-metric
threshold of the cross-source mean whenever the metric is evaluated
(at least two reporters). -/
def withinAll (s : Source) (results : Results) : Prop :=
  ∀ m ∈ defaultMetrics, ∀ v : ℚ, (s, v) ∈ reporters results m →
    2 ≤ (reporters results m).length → |v - metricMean results m| ≤ threshold m

theorem updateMetric_rel_bounds (m : Metric) (results : Results) (st : RelState)
    (s : Source) (h0 : 0 ≤ st.rel s) (h2 : st.rel s ≤ 2) :
    0 ≤ (updateMetric m results st).rel s ∧ (updateMetric m results st).rel s ≤ 2 := by
  by_cases hmem : s ∈ (reporters results m).map Prod.fst
  · by_cases hlen : (reporters results m).length < 2
    · rw [updateMetric_skip _ _ _ hlen]; exact ⟨h0, h2⟩
    · obtain ⟨p, hp, hfst⟩ := List.mem_map.mp hmem
      have hpv : (s, p.2) ∈ reporters results m := by
        have : (s, p.2) = p := by rw [← hfst]
        rw [this]; exact hp
      rw [(updateMetric_of_mem m results st s p.2 hpv (by omega)).1]
      split
      · exact ⟨le_max_right _ _, max_le (by linarith) (by norm_num)⟩
      · exact ⟨le_min (by linarith) (by norm_num), min_le_right _ _⟩
  · rw [(updateMetric_not_reporting m results st s hmem).1]; exact ⟨h0, h2⟩

theorem updateMetric_rel_mono (m : Metric) (results : Results) (st : RelState)
    (s : Source) (hm : m ∈ defaultMetrics) (hw : withinAll s results)
    (h2 : st.rel s ≤ 2) :
    st.rel s ≤ (updateMetric m results st).rel s := by
  by_cases hmem : s ∈ (reporters results m).map Prod.fst
  · by_cases hlen : (reporters results m).length < 2
    · rw [updateMetric_skip _ _ _ hlen]
    · obtain ⟨p, hp, hfst⟩ := List.mem_map.mp hmem
      have hpv : (s, p.2) ∈ reporters results m := by
        have : (s, p.2) = p := by rw [← hfst]
        rw [this]; exact hp
      rw [(updateMetric_of_mem m results st s p.2 hpv (by omega)).1]
      rw [if_neg (not_lt.mpr (hw m hm p.2 hpv (by omega)))]
      exact le_min (by linarith) h2
  · rw [(updateMetric_not_reporting m results st s hmem).1]

theorem updateMetric_rel_strict (m : Metric) (results : Results) (st : RelState)
    (s : Source) (v : ℚ) (hmem : (s, v) ∈ reporters results m)
    (hlen : 2 ≤ (reporters results m).length)
    (hwithin : |v - metricMean results m| ≤ threshold m)
    (hlt : st.rel s < 2) :
    st.rel s < (updateMetric m results st).rel s := by
  rw [(updateMetric_of_mem m results st s v hmem hlen).1,
    if_neg (not_lt.mpr hwithin)]
  exact lt_min (by linarith) hlt

theorem foldMetrics_rel (results : Results) (s : Source) (hw : withinAll s results) :
    ∀ ms : List Metric, (∀ m ∈ ms, m ∈ defaultMetrics) → ∀ st : RelState,
      0 ≤ st.rel s → st.rel s ≤ 2 →
      0 ≤ (ms.foldl (fun st m => updateMetric m results st) st).rel s ∧
      (ms.foldl (fun st m => updateMetric m results st) st).rel s ≤ 2 ∧
      st.rel s ≤ (ms.foldl (fun st m => updateMetric m results st) st).rel s := by
  intro ms
  induction ms with
  | nil => intro _ st h0 h2; exact ⟨h0, h2, le_refl _⟩
  | cons m t ih =>
    intro hms st h0 h2
    have hm : m ∈ defaultMetrics := hms m (List.mem_cons_self m t)
    have hb := updateMetric_rel_bounds m results st s h0 h2
    have hmono := updateMetric_rel_mono m results st s hm hw h2
    have ht := ih (fun x hx => hms x (List.mem_cons_of_mem m hx))
      (updateMetric m results st) hb.1 hb.2
    exact ⟨ht.1, ht.2.1, hmono.trans ht.2.2⟩

theorem update_multi_rel (results : Results) (s : Source) (hw : withinAll s results)
    (st : RelState) (h0 : 0 ≤ st.rel s) (h2 : st.rel s ≤ 2) :
    0 ≤ (update_reliability_multi results st).rel s ∧
    (update_reliability_multi results st).rel s ≤ 2 ∧
    st.rel s ≤ (update_reliability_multi results st).rel s :=
  foldMetrics_rel results s hw defaultMetrics (fun _ h => h) st h0 h2

/-- C8: across any sequence of reliability updates in which source `s`
always falls within threshold of the mean whenever a metric is evaluated,
`s`'s score stays in [0, 2] and never decreases; and each single evaluated
metric on which `s` reports within threshold strictly increases the score
while it is below the 2.0 ceiling. -/
theorem reliability_monotone (seq : List Results) (s : Source) (st : RelState)
    (hgood : ∀ r ∈ seq, withinAll s r)
    (h0 : 0 ≤ st.rel s) (h2 : st.rel s ≤ 2) :
    (0 ≤ (seq.foldl (fun st r => update_reliability_multi r st) st).rel s ∧
     (seq.foldl (fun st r => update_reliability_multi r st) st).rel s ≤ 2 ∧
     st.rel s ≤ (seq.foldl (fun st r => update_reliability_multi r st) st).rel s) ∧
    (∀ (results : Results) (m : Metric) (stc : RelState) (v : ℚ),
      (s, v) ∈ reporters results m → 2 ≤ (reporters results m).length →
      |v - metricMean results m| ≤ threshold m → stc.rel s < 2 →
      stc.rel s < (updateMetric m results stc).rel s) := by
  constructor
  · induction seq generalizing st with
    | nil => exact ⟨h0, h2, le_refl _⟩
    | cons r t ih =>
      have hr := update_multi_rel r s (hgood r (List.mem_cons_self r t)) st h0 h2
      have ht := ih (update_reliability_multi r st)
        (fun x hx => hgood x (List.mem_cons_of_mem r hx)) hr.1 hr.2.1
      exact ⟨ht.1, ht.2.1, hr.2.2.trans ht.2.2⟩
  · exact fun results m stc v hmem hlen hwithin hlt =>
      updateMetric_rel_strict m results stc s v hmem hlen hwithin hlt

/-- Fixture: two sources agreeing exactly on temperature (deviation 0). -/
def agreeResults : Results := fun s =>
  match s with
  | .weatherapi => { current := some { temp := some 30, source := "weatherapi" } }
  | .openmeteo => { current := some { temp := some 30, source := "openmeteo" } }
  | .openweather => { current := none }

theorem agree_withinAll : withinAll .weatherapi agreeResults := by
  intro m hm v hv hlen
  have e1 : reporters agreeResults .temp = [(.weatherapi, 30), (.openmeteo, 30)] := rfl
  fin_cases hm
  · have hmean : metricMean agreeResults .temp = 30 := by
      unfold metricMean; rw [e1]; norm_num
    rw [e1] at hv
    simp at hv
    rw [hv, hmean, threshold]
    norm_num
  · exact absurd (by rw [show reporters agreeResults .humidity = [] from rfl] at hlen; exact hlen)
      (by decide)
  · exact absurd (by rw [show reporters agreeResults .pressure = [] from rfl] at hlen; exact hlen)
      (by decide)
  · exact absurd (by rw [show reporters agreeResults .windSpeed = [] from rfl] at hlen; exact hlen)
      (by decide)

theorem reliability_monotone_witness :
    (∀ r ∈ [agreeResults], withinAll .weatherapi r) ∧
    0 ≤ initState.rel .weatherapi ∧ initState.rel .weatherapi ≤ 2 ∧
    (0 ≤ ([agreeResults].foldl (fun st r => update_reliability_multi r st) initState).rel
        .weatherapi ∧
     ([agreeResults].foldl (fun st r => update_reliability_multi r st) initState).rel
        .weatherapi ≤ 2 ∧
     initState.rel .weatherapi ≤
       ([agreeResults].foldl (fun st r => update_reliability_multi r st) initState).rel
        .weatherapi) := by
  have hg : ∀ r ∈ [agreeResults], withinAll .weatherapi r := by
    intro r hr
    rw [List.mem_singleton.mp hr]
    exact agree_withinAll
  have h0 : (0:ℚ) ≤ initState.rel .weatherapi := by norm_num [initState, initReliability]
  have h2 : initState.rel .weatherapi ≤ 2 := by norm_num [initState, initReliability]
  exact ⟨hg, h0, h2,
    (reliability_monotone [agreeResults] .weatherapi initState hg h0 h2).1⟩

/-! ### Daily schema normalization (C1) -/

theorem insertDesc_mem (rel : Source → ℚ) (x : Source) :
    ∀ (l : List Source) (s : Source), s ∈ insertDesc rel x l ↔ s = x ∨ s ∈ l := by
  intro l
  induction l with
  | nil => intro s; simp [insertDesc]
  | cons t ts ih =>
    intro s
    unfold insertDesc
    split
    · simp
    · rw [List.mem_cons, ih s, List.mem_cons]
      tauto

theorem mem_foldl_insertDesc (rel : Source → ℚ) :
    ∀ (l acc : List Source) (s : Source), s ∈ acc ∨ s ∈ l →
      s ∈ l.foldl (fun a x => insertDesc rel x a) acc := by
  intro l
  induction l with
  | nil => intro acc s h; simpa using h
  | cons x t ih =>
    intro acc s h
    apply ih (insertDesc rel x acc) s
    rcases h with h | h
    · exact Or.inl ((insertDesc_mem rel x acc s).mpr (Or.inr h))
    · rcases List.mem_cons.mp h with h | h
      · exact Or.inl ((insertDesc_mem rel x acc s).mpr (Or.inl h))
      · exact Or.inr h

theorem mem_sortedSources (rel : Source → ℚ) (s : Source) : s ∈ sortedSources rel :=
  mem_foldl_insertDesc rel sourceOrder [] s (Or.inr (by cases s <;> decide))

theorem activeDaily_eq_some (results : Results) (s : Source) (df : List DRow) :
    activeDaily results s = some df ↔ (results s).daily = some df ∧ df ≠ [] := by
  unfold activeDaily
  cases h : (results s).daily with
  | none => simp
  | some df0 =>
    simp only [Option.some_bind, Option.some.injEq]
    by_cases he : df0.isEmpty = true
    · have h0 : df0 = [] := List.isEmpty_iff.mp he
      subst h0
      simp
    · rw [if_neg he]
      constructor
      · intro hh
        obtain rfl := Option.some.inj hh
        exact ⟨rfl, fun hnil => he (by rw [hnil]; rfl)⟩
      · exact fun hh => by rw [hh.1]

theorem firstDailySource_found (results : Results) :
    ∀ l : List Source, (∃ s ∈ l, (activeDaily results s).isSome) →
      ∃ s df, firstDailySource results l = some (s, df) ∧
        activeDaily results s = some df := by
  intro l
  induction l with
  | nil => rintro ⟨s, hs, _⟩; cases hs
  | cons x t ih =>
    rintro ⟨s, hs, hsome⟩
    cases hx : activeDaily results x with
    | some df => exact ⟨x, df, by simp [firstDailySource, hx], hx⟩
    | none =>
      rcases List.mem_cons.mp hs with rfl | hst
      · rw [hx] at hsome; cases hsome
      · obtain ⟨s1, df1, hfind, hact⟩ := ih ⟨s, hst, hsome⟩
        exact ⟨s1, df1, by simp [firstDailySource, hx, hfind], hact⟩

theorem normalize_daily_isSome (df : List DRow) (src : String)
    (h : ∀ r ∈ df, (r.temp_min.isSome ∧ r.temp_max.isSome) ∨
      r.temp_avg.isSome ∨ r.temp.isSome) :
    ∀ r ∈ normalize_daily df src, r.temp_min.isSome ∧ r.temp_max.isSome := by
  intro r hr
  obtain ⟨r0, hr0, rfl⟩ := List.mem_map.mp hr
  rcases h r0 hr0 with ⟨h1, h2⟩ | h1 | h1 <;>
    cases htm : r0.temp_min <;> cases htx : r0.temp_max <;>
    cases hta : r0.temp_avg <;> cases ht : r0.temp <;>
    simp_all [normalize_daily, Option.orElse]

/-- Every row surviving the weighted daily division still carries a
non-null `temp_avg` (it is a grouped sum, never divided). -/
theorem divideDaily_rows_avg_some (X : List DSumRow) :
    ∀ r ∈ divideDaily X, r.temp_avg.isSome := by
  intro r hr
  unfold divideDaily at hr
  split at hr <;> obtain ⟨x, _, rfl⟩ := List.mem_map.mp hr <;> simp [dsumToDRow]

theorem normalize_divide_isSome (X : List DSumRow) :
    ∀ r ∈ normalize_daily (divideDaily X) "avg",
      r.temp_min.isSome ∧ r.temp_max.isSome := by
  intro r hr
  obtain ⟨r0, hr0, rfl⟩ := List.mem_map.mp hr
  obtain ⟨v, hv⟩ := Option.isSome_iff_exists.mp (divideDaily_rows_avg_some X r0 hr0)
  cases htm : r0.temp_min <;> cases htx : r0.temp_max <;>
    simp [normalize_daily, Option.orElse, hv, htm, htx]

/-- Weights appended by the weighted current collection loop are
reliability scores, hence positive when every score is. -/
theorem collectWStep_weights_pos (results : Results) (rel : Source → ℚ)
    (hpos : ∀ s, 0 < rel s) :
    ∀ (l : List Source) (acc : List (Option ℚ) × List (Option ℚ) × List (Option ℚ) ×
        List (Option ℚ) × List ℚ), (∀ w ∈ acc.2.2.2.2, 0 < w) →
      ∀ w ∈ (l.foldl (collectWStep results rel) acc).2.2.2.2, 0 < w := by
  intro l
  induction l with
  | nil => intro acc hacc; exact hacc
  | cons s t ih =>
    intro acc hacc
    rw [List.foldl_cons]
    apply ih
    cases hc : (results s).current with
    | none =>
      simp only [collectWStep, hc]
      exact hacc
    | some c =>
      by_cases hts : c.temp.isSome = true
      · simp only [collectWStep, hc, if_pos hts]
        intro w hw
        rcases List.mem_append.mp hw with h | h
        · exact hacc w h
        · rw [List.mem_singleton.mp h]
          exact hpos s
      · simp only [collectWStep, hc, if_neg hts]
        exact hacc

theorem collectWeighted_weights_pos (results : Results) (rel : Source → ℚ)
    (hpos : ∀ s, 0 < rel s) : ∀ w ∈ (collectWeighted results rel).2.2.2.2, 0 < w :=
  collectWStep_weights_pos results rel hpos sourceOrder ([], [], [], [], [])
    (fun w hw => absurd hw (List.not_mem_nil w))

/-- With all-positive weights `np.average` cannot divide by zero:
`weighted_avg` returns a value. -/
theorem weighted_avg_ok (values : List (Option ℚ)) (weights : List ℚ)
    (hpos : ∀ w ∈ weights, 0 < w) :
    ∃ v, weighted_avg values weights = Except.ok v := by
  unfold weighted_avg
  by_cases h1 : values.isEmpty = true ∨ weights.isEmpty = true ∨ weights.sum = 0
  · exact ⟨none, by rw [if_pos h1]⟩
  · rw [if_neg h1]
    by_cases h2 : ((values.zip weights).filterMap fun p =>
        p.1.map fun v => (v, p.2)).isEmpty = true
    · exact ⟨none, by rw [if_pos h2]⟩
    · rw [if_neg h2]
      have hsub : ∀ q ∈ ((values.zip weights).filterMap fun p =>
          p.1.map fun v => (v, p.2)).map Prod.snd, 0 < q := by
        intro q hq
        obtain ⟨p, hp, rfl⟩ := List.mem_map.mp hq
        obtain ⟨p0, hp0, hmap⟩ := List.mem_filterMap.mp hp
        cases hval : p0.1 with
        | none => rw [hval] at hmap; cases hmap
        | some v =>
          rw [hval] at hmap
          obtain rfl := Option.some.inj hmap
          exact hpos p0.2 (List.of_mem_zip hp0).2
      have hne : ((values.zip weights).filterMap fun p =>
          p.1.map fun v => (v, p.2)).map Prod.snd ≠ [] := by
        simp only [ne_eq, List.map_eq_nil_iff]
        intro hc
        rw [show ((values.zip weights).filterMap fun p =>
          p.1.map fun v => (v, p.2)) = [] from hc] at h2
        exact h2 rfl
      rw [if_neg (ne_of_gt (List.sum_pos _ hsub hne))]
      exact ⟨_, rfl⟩

/-- With every reliability score positive the weighted merge never
raises: the result is `ok`, with the hourly/daily sections as in the
source. -/
theorem merge_weighted_ok (rel : Source → ℚ) (results : Results)
    (hpos : ∀ s, 0 < rel s) :
    ∃ cur : CurrentRec, merge_sources_weighted rel results = Except.ok
      { current := some cur
        hourly :=
          if (sourceOrder.filterMap fun s => (activeHourly results s).map fun df =>
                df.map fun r => (scaleHourly (rel s) r, rel s)).isEmpty then none
          else some (divideHourly (groupSumH ((sourceOrder.filterMap fun s =>
                (activeHourly results s).map fun df =>
                  df.map fun r => (scaleHourly (rel s) r, rel s)).flatten)))
        daily :=
          if (sourceOrder.filterMap fun s => (activeDaily results s).map fun df =>
                (normalize_daily df (sourceName s)).map fun r =>
                  (scaleDaily (rel s) r, rel s)).isEmpty then none
          else some (normalize_daily (divideDaily (groupSumD ((sourceOrder.filterMap fun s =>
                (activeDaily results s).map fun df =>
                  (normalize_daily df (sourceName s)).map fun r =>
                    (scaleDaily (rel s) r, rel s)).flatten))) "avg") } := by
  obtain ⟨tv, htv⟩ := weighted_avg_ok (collectWeighted results rel).1
    (collectWeighted results rel).2.2.2.2 (collectWeighted_weights_pos results rel hpos)
  obtain ⟨hv, hhv⟩ := weighted_avg_ok (collectWeighted results rel).2.1
    (collectWeighted results rel).2.2.2.2 (collectWeighted_weights_pos results rel hpos)
  obtain ⟨pv, hpv⟩ := weighted_avg_ok (collectWeighted results rel).2.2.1
    (collectWeighted results rel).2.2.2.2 (collectWeighted_weights_pos results rel hpos)
  obtain ⟨wv, hwv⟩ := weighted_avg_ok (collectWeighted results rel).2.2.2.1
    (collectWeighted results rel).2.2.2.2 (collectWeighted_weights_pos results rel hpos)
  refine ⟨{ temp := tv, humidity := hv, pressure := pv, wind_speed := wv,
            source := "weighted" }, ?_⟩
  simp only [merge_sources_weighted, htv, hhv, hpv, hwv, Except.bind, Except.map]

/-- C1 counterexample fixtures: weatherapi's score has decayed to exactly
0 (reachable: the tracker clamps at `max(x - 0.2, 0.0)`) while the other
scores are positive; weatherapi is the only humidity reporter among the
temp-reporting sources. -/
def zeroRel : Source → ℚ := fun s =>
  match s with
  | .weatherapi => 0
  | .openmeteo => 1
  | .openweather => 1/2

def cex1Daily : DRow := { ts := 0, temp_avg := some 25 }

def cex1Results : Results := fun s =>
  match s with
  | .weatherapi => { current := some { temp := some 30, humidity := some 50 },
                     daily := some [cex1Daily] }
  | .openmeteo => { current := some { temp := some 31 } }
  | .openweather => {}

/-- C1 counterexample: a results set with a non-empty well-formed daily
series on which the weighted merge RAISES instead of returning a bundle:
the only humidity value comes from the score-0 source, so `np.average`
divides by a zero weight sum in the current section and the
ZeroDivisionError escapes before any daily is produced. -/
theorem weighted_merge_raises_counterexample :
    activeDaily cex1Results .weatherapi = some [cex1Daily] ∧
    cex1Daily.temp_avg.isSome ∧
    merge_sources_weighted zeroRel cex1Results =
      Except.error "Weights sum to zero, can't be normalized" := by
  refine ⟨rfl, rfl, ?_⟩
  norm_num [merge_sources_weighted, collectWeighted, collectWStep, cex1Results, zeroRel,
    sourceOrder, weighted_avg, Except.bind, Except.map, List.filterMap_cons,
    List.filterMap_nil, Option.map_some', List.map_cons, List.map_nil, List.sum_cons,
    List.sum_nil, List.zip_cons_cons, List.zip_nil_right, List.zip_nil_left]

/-- C1 (amended): whenever every reliability score is positive and some
source has a non-empty daily series (and every daily record carries
either a temp_min/temp_max pair or a single temp_avg/temp), the "dynamic"
merge returns — and the "weighted" merge completes without raising and
returns — a daily series in which every record has a non-null
temp_min/temp_max pair, derived from the average temperature when that is
all the source provides (via the spec-modelled `_normalize_daily`).  With
a score decayed to exactly 0 the weighted merge can instead raise a
ZeroDivisionError in its current section, see the counterexample. -/
theorem merged_daily_schema_normalized (rel : Source → ℚ) (results : Results)
    (hpos : ∀ s, 0 < rel s)
    (hex : ∃ s df, activeDaily results s = some df)
    (hrows : ∀ s df, (results s).daily = some df → ∀ r ∈ df,
      (r.temp_min.isSome ∧ r.temp_max.isSome) ∨ r.temp_avg.isSome ∨ r.temp.isSome) :
    (∃ df, (merge_sources_dynamic rel results).daily = some df ∧
      ∀ r ∈ df, r.temp_min.isSome ∧ r.temp_max.isSome) ∧
    (∃ m df, merge_sources_weighted rel results = Except.ok m ∧ m.daily = some df ∧
      ∀ r ∈ df, r.temp_min.isSome ∧ r.temp_max.isSome) := by
  obtain ⟨s0, df0, h0⟩ := hex
  constructor
  · obtain ⟨s1, df1, hfind, hact⟩ := firstDailySource_found results (sortedSources rel)
      ⟨s0, mem_sortedSources rel s0, by rw [h0]; rfl⟩
    refine ⟨normalize_daily df1 (sourceName s1), ?_, ?_⟩
    · simp [merge_sources_dynamic, hfind]
    · exact normalize_daily_isSome df1 _
        (hrows s1 df1 ((activeDaily_eq_some results s1 df1).mp hact).1)
  · have hne : (sourceOrder.filterMap fun s =>
        (activeDaily results s).map fun df =>
          (normalize_daily df (sourceName s)).map fun r =>
            (scaleDaily (rel s) r, rel s)) ≠ [] := by
      intro hnil
      have := (List.filterMap_eq_nil_iff.mp hnil) s0 (by cases s0 <;> decide)
      rw [h0] at this
      cases this
    obtain ⟨cur, hok⟩ := merge_weighted_ok rel results hpos
    refine ⟨_, normalize_daily (divideDaily (groupSumD ((sourceOrder.filterMap fun s =>
        (activeDaily results s).map fun df =>
          (normalize_daily df (sourceName s)).map fun r =>
            (scaleDaily (rel s) r, rel s)).flatten))) "avg", hok, ?_,
      normalize_divide_isSome _⟩
    show (if (sourceOrder.filterMap fun s => (activeDaily results s).map fun df =>
          (normalize_daily df (sourceName s)).map fun r =>
            (scaleDaily (rel s) r, rel s)).isEmpty then none
        else some (normalize_daily (divideDaily (groupSumD ((sourceOrder.filterMap fun s =>
          (activeDaily results s).map fun df =>
            (normalize_daily df (sourceName s)).map fun r =>
              (scaleDaily (rel s) r, rel s)).flatten))) "avg")) = _
    rw [if_neg (by simpa [List.isEmpty_iff] using hne)]

/-- Fixture: one source provides a daily series carrying only an average
temperature. -/
def avgOnlyDaily : Results := fun s =>
  match s with
  | .weatherapi => { daily := some [{ ts := 0, temp_avg := some 25 }] }
  | _ => {}

theorem merged_daily_schema_normalized_witness :
    (∀ s, 0 < initReliability s) ∧
    (∃ s df, activeDaily avgOnlyDaily s = some df) ∧
    (∃ df, (merge_sources_dynamic initReliability avgOnlyDaily).daily = some df ∧
      ∀ r ∈ df, r.temp_min.isSome ∧ r.temp_max.isSome) ∧
    (∃ m df, merge_sources_weighted initReliability avgOnlyDaily = Except.ok m ∧
      m.daily = some df ∧ ∀ r ∈ df, r.temp_min.isSome ∧ r.temp_max.isSome) := by
  have hpos : ∀ s, 0 < initReliability s := by
    intro s
    cases s <;> norm_num [initReliability]
  have hex : ∃ s df, activeDaily avgOnlyDaily s = some df :=
    ⟨.weatherapi, [{ ts := 0, temp_avg := some 25 }], rfl⟩
  have hrows : ∀ s df, (avgOnlyDaily s).daily = some df → ∀ r ∈ df,
      (r.temp_min.isSome ∧ r.temp_max.isSome) ∨ r.temp_avg.isSome ∨ r.temp.isSome := by
    intro s df hdf r hr
    cases s <;> simp [avgOnlyDaily] at hdf
    · rw [← hdf] at hr
      simp at hr
      rw [hr]
      simp
  have h := merged_daily_schema_normalized initReliability avgOnlyDaily hpos hex hrows
  exact ⟨hpos, hex, h.1, h.2⟩

/-! ### Normalizer reduction lemmas and duplicate handling (C5) -/

theorem interpolate_ok_eq (f : NFrame) (p0 : PRow) (rest : List PRow)
    (hp : parseRows f.rows = p0 :: rest)
    (hcols : (f.hasTemp : Prop) ∨ f.hasRain ∨ f.hasWind)
    (hnd : ((p0 :: rest).map (·.ts)).Nodup) :
    interpolate_to_24h f = .ok (normalizeOk f p0 rest) := by
  have hne : f.rows ≠ [] := by
    intro h
    rw [h] at hp
    cases hp
  unfold interpolate_to_24h
  rw [if_neg (by simpa [List.isEmpty_iff] using hne)]
  simp only [hp]
  rw [if_neg (not_not_intro hcols), if_neg (not_not_intro hnd)]

theorem interpolate_dup_error (f : NFrame)
    (hcols : (f.hasTemp : Prop) ∨ f.hasRain ∨ f.hasWind)
    (hdup : ¬ ((parseRows f.rows).map (·.ts)).Nodup) :
    interpolate_to_24h f = .error "cannot reindex on an axis with duplicate labels" := by
  have hPne : parseRows f.rows ≠ [] := by
    intro h
    rw [h] at hdup
    exact hdup List.nodup_nil
  have hne : f.rows ≠ [] := fun h => hPne (by rw [h]; rfl)
  obtain ⟨p0, rest, hp⟩ := List.exists_cons_of_ne_nil hPne
  unfold interpolate_to_24h
  rw [if_neg (by simpa [List.isEmpty_iff] using hne)]
  simp only [hp]
  rw [hp] at hdup
  rw [if_neg (not_not_intro hcols), if_pos hdup]

theorem dedupKeysAux_spec : ∀ (l seen : List ℤ),
    (dedupKeysAux seen l).Nodup ∧ ∀ x ∈ dedupKeysAux seen l, x ∉ seen := by
  intro l
  induction l with
  | nil => intro seen; exact ⟨List.nodup_nil, by simp [dedupKeysAux]⟩
  | cons t ts ih =>
    intro seen
    unfold dedupKeysAux
    split
    · exact ih seen
    · rename_i hts
      obtain ⟨ihn, ihm⟩ := ih (t :: seen)
      refine ⟨List.nodup_cons.mpr ⟨fun hmem => (ihm t hmem) (List.mem_cons_self t seen), ihn⟩, ?_⟩
      intro x hx
      rcases List.mem_cons.mp hx with rfl | hx2
      · exact hts
      · exact fun hxs => (ihm x hx2) (List.mem_cons_of_mem t hxs)

theorem dedupKeys_nodup (l : List ℤ) : (dedupKeys l).Nodup := (dedupKeysAux_spec l []).1

theorem groupMeanH_ts (rows : List HRow) :
    (groupMeanH rows).map (·.ts) = dedupKeys (rows.map (·.ts)) := by
  unfold groupMeanH
  rw [List.map_map]
  exact List.map_id _

/-- Fixture: two records sharing the timestamp 1970-01-01T00:00Z. -/
def dupFrame : NFrame :=
  { hasTemp := true, hasRain := false, hasWind := false,
    rows := [{ ts := some 0, temp := some 10 }, { ts := some 0, temp := some 20 }] }

/-- C5 counterexample: on duplicate timestamps the Normalizer does not
produce a deduplicated series — pandas `reindex` raises. -/
theorem normalizer_duplicate_counterexample :
    interpolate_to_24h dupFrame =
        .error "cannot reindex on an axis with duplicate labels" ∧
      ∀ out : OFrame, interpolate_to_24h dupFrame ≠ .ok out := by
  have h : interpolate_to_24h dupFrame =
      .error "cannot reindex on an axis with duplicate labels" :=
    interpolate_dup_error dupFrame (Or.inl rfl) (by decide)
  refine ⟨h, fun out hout => ?_⟩
  rw [h] at hout
  exact Except.noConfusion hout

/-- C5 (amended): duplicate timestamps are NOT resolved by the Normalizer
— `interpolate_to_24h` fails with pandas' duplicate-label ValueError;
the grouping/averaging that guarantees unique timestamps lives in the
ensemble merge, whose "avg" output is keyed by deduplicated timestamps. -/
theorem normalizer_duplicates_raise (f : NFrame)
    (hcols : (f.hasTemp : Prop) ∨ f.hasRain ∨ f.hasWind)
    (hdup : ¬ ((parseRows f.rows).map (·.ts)).Nodup) :
    interpolate_to_24h f = .error "cannot reindex on an axis with duplicate labels" ∧
    ∀ (results : Results) (df : List HRow),
      (merge_sources results "avg").hourly = some df → (df.map (·.ts)).Nodup := by
  refine ⟨interpolate_dup_error f hcols hdup, ?_⟩
  intro results df h
  have hb : ¬("avg" = "best") := by decide
  simp only [merge_sources, if_neg hb, if_pos rfl] at h
  by_cases hre : (sourceOrder.filterMap (activeHourly results)).isEmpty = true
  · rw [if_pos hre] at h
    cases h
  · rw [if_neg hre] at h
    obtain rfl := Option.some.inj h
    rw [groupMeanH_ts]
    exact dedupKeys_nodup _

theorem normalizer_duplicates_raise_witness :
    ((dupFrame.hasTemp : Prop) ∨ dupFrame.hasRain ∨ dupFrame.hasWind) ∧
    ¬ ((parseRows dupFrame.rows).map (·.ts)).Nodup ∧
    interpolate_to_24h dupFrame =
      .error "cannot reindex on an axis with duplicate labels" :=
  ⟨Or.inl rfl, by decide,
   (normalizer_duplicates_raise dupFrame (Or.inl rfl) (by decide)).1⟩

/-! ### Fill-pipeline lemmas (C2, C9) -/

theorem getD_map_range {α : Type} (f : ℕ → α) (n i : ℕ) (d : α) (h : i < n) :
    ((List.range n).map f).getD i d = f i := by
  rw [List.getD_eq_getElem?_getD, List.getElem?_map, List.getElem?_range h]
  rfl

theorem getD_take {α : Type} (l : List α) (n i : ℕ) (d : α) (h : i < n) :
    (l.take n).getD i d = l.getD i d := by
  rw [List.getD_eq_getElem?_getD, List.getD_eq_getElem?_getD, List.getElem?_take, if_pos h]

theorem getD_drop {α : Type} (l : List α) (n i : ℕ) (d : α) :
    (l.drop n).getD i d = l.getD (n + i) d := by
  rw [List.getD_eq_getElem?_getD, List.getD_eq_getElem?_getD, List.getElem?_drop]

theorem firstSomeIdx_isSome_of (xs : List (Option ℚ)) (j : ℕ) (hj : j < xs.length)
    (hv : (xs.getD j none).isSome) : (firstSomeIdx xs).isSome := by
  induction xs generalizing j with
  | nil => simp at hj
  | cons x t ih =>
    cases x with
    | some v => simp [firstSomeIdx]
    | none =>
      cases j with
      | zero => simp [List.getD] at hv
      | succ j2 =>
        have := ih j2 (by simpa using hj) (by simpa [List.getD] using hv)
        unfold firstSomeIdx
        cases hf : firstSomeIdx t with
        | none => rw [hf] at this; cases this
        | some p => simp

theorem lastSomeIdx_isSome_of (xs : List (Option ℚ)) (j : ℕ) (hj : j < xs.length)
    (hv : (xs.getD j none).isSome) : (lastSomeIdx xs).isSome := by
  induction xs generalizing j with
  | nil => simp at hj
  | cons x t ih =>
    unfold lastSomeIdx
    cases hl : lastSomeIdx t with
    | some p => simp
    | none =>
      cases j with
      | zero =>
        cases x with
        | none => simp [List.getD] at hv
        | some v => simp
      | succ j2 =>
        have := ih j2 (by simpa using hj) (by simpa [List.getD] using hv)
        rw [hl] at this
        cases this

theorem firstSomeIdx_eq (xs : List (Option ℚ)) (k : ℕ) (v : ℚ) (hk : k < xs.length)
    (hv : xs.getD k none = some v)
    (hbefore : ∀ i, i < k → xs.getD i none = none) :
    firstSomeIdx xs = some (k, v) := by
  induction xs generalizing k with
  | nil => simp at hk
  | cons x t ih =>
    cases k with
    | zero =>
      simp only [List.getD] at hv
      simp at hv
      rw [hv]
      rfl
    | succ k2 =>
      have hx : x = none := by
        have := hbefore 0 (Nat.succ_pos k2)
        simpa [List.getD] using this
      subst hx
      have ht := ih k2 (by simpa using hk) (by simpa [List.getD] using hv)
        (fun i hi => by simpa [List.getD] using hbefore (i + 1) (by omega))
      unfold firstSomeIdx
      rw [ht]
      rfl

theorem lastSomeIdx_none_of (xs : List (Option ℚ))
    (h : ∀ i, i < xs.length → xs.getD i none = none) : lastSomeIdx xs = none := by
  induction xs with
  | nil => rfl
  | cons x t ih =>
    have hx : x = none := by simpa [List.getD] using h 0 (by simp)
    subst hx
    have ht := ih (fun i hi => by simpa [List.getD] using h (i + 1) (by simpa using hi))
    unfold lastSomeIdx
    rw [ht]
    rfl

theorem lastSomeIdx_eq (xs : List (Option ℚ)) (j : ℕ) (v : ℚ) (hj : j < xs.length)
    (hv : xs.getD j none = some v)
    (hafter : ∀ k, j < k → k < xs.length → xs.getD k none = none) :
    lastSomeIdx xs = some (j, v) := by
  induction xs generalizing j with
  | nil => simp at hj
  | cons x t ih =>
    cases j with
    | zero =>
      have hx : x = some v := by
        simp only [List.getD] at hv
        simpa using hv
      have ht : lastSomeIdx t = none := by
        apply lastSomeIdx_none_of
        intro i hi
        simpa [List.getD] using hafter (i + 1) (by omega) (by simpa using hi)
      unfold lastSomeIdx
      rw [ht, hx]
      rfl
    | succ j2 =>
      have ht := ih j2 (by simpa using hj) (by simpa [List.getD] using hv)
        (fun k hk hk2 => by simpa [List.getD] using hafter (k + 1) (by omega) (by simpa using hk2))
      unfold lastSomeIdx
      rw [ht]

theorem interpolateLinear_length (xs : List (Option ℚ)) :
    (interpolateLinear xs).length = xs.length := by
  simp [interpolateLinear]

theorem ffill_length (xs : List (Option ℚ)) : (ffill xs).length = xs.length := by
  simp [ffill]

theorem bfill_length (xs : List (Option ℚ)) : (bfill xs).length = xs.length := by
  simp [bfill]

theorem fillColumn_length (xs : List (Option ℚ)) : (fillColumn xs).length = xs.length := by
  rw [fillColumn, bfill_length, ffill_length, interpolateLinear_length]

theorem interpolateLinear_getD (xs : List (Option ℚ)) (i : ℕ) (h : i < xs.length) :
    (interpolateLinear xs).getD i none = interpAt xs i :=
  getD_map_range _ _ _ _ h

theorem ffill_getD (xs : List (Option ℚ)) (i : ℕ) (h : i < xs.length) :
    (ffill xs).getD i none = (lastSomeIdx (xs.take (i + 1))).map Prod.snd :=
  getD_map_range _ _ _ _ h

theorem bfill_getD (xs : List (Option ℚ)) (i : ℕ) (h : i < xs.length) :
    (bfill xs).getD i none = (firstSomeIdx (xs.drop i)).map Prod.snd :=
  getD_map_range _ _ _ _ h

theorem interpAt_of_some (xs : List (Option ℚ)) (i : ℕ) (v : ℚ)
    (h : xs.getD i none = some v) : interpAt xs i = some v := by
  unfold interpAt
  rw [h]

theorem ffill_getD_of_some (xs : List (Option ℚ)) (i : ℕ) (v : ℚ) (hi : i < xs.length)
    (h : xs.getD i none = some v) : (ffill xs).getD i none = some v := by
  rw [ffill_getD xs i hi]
  rw [lastSomeIdx_eq (xs.take (i + 1)) i v
    (by rw [List.length_take]; omega)
    (by rw [getD_take xs (i + 1) i none (by omega)]; exact h)
    (fun k hk hk2 => by rw [List.length_take] at hk2; omega)]
  rfl

theorem bfill_getD_of_some (xs : List (Option ℚ)) (i : ℕ) (v : ℚ) (hi : i < xs.length)
    (h : xs.getD i none = some v) : (bfill xs).getD i none = some v := by
  rw [bfill_getD xs i hi]
  rw [firstSomeIdx_eq (xs.drop i) 0 v
    (by rw [List.length_drop]; omega)
    (by rw [getD_drop]; simpa using h)
    (fun k hk => by omega)]
  rfl

theorem ffill_isSome_from (xs : List (Option ℚ)) (j i : ℕ) (v : ℚ)
    (_hj : j < xs.length) (hji : j ≤ i) (hi : i < xs.length)
    (hv : xs.getD j none = some v) : ((ffill xs).getD i none).isSome := by
  rw [ffill_getD xs i hi]
  have hfirst : (lastSomeIdx (xs.take (i + 1))).isSome := by
    apply lastSomeIdx_isSome_of (xs.take (i + 1)) j
    · rw [List.length_take]; omega
    · rw [getD_take xs (i + 1) j none (by omega), hv]; rfl
  cases hl : lastSomeIdx (xs.take (i + 1)) with
  | none => rw [hl] at hfirst; cases hfirst
  | some p => rfl

theorem bfill_isSome_upto (xs : List (Option ℚ)) (k i : ℕ)
    (hk : k < xs.length) (hik : i ≤ k)
    (hv : (xs.getD k none).isSome) : ((bfill xs).getD i none).isSome := by
  have hi : i < xs.length := by omega
  rw [bfill_getD xs i hi]
  have hfirst : (firstSomeIdx (xs.drop i)).isSome := by
    apply firstSomeIdx_isSome_of (xs.drop i) (k - i)
    · rw [List.length_drop]; omega
    · rw [getD_drop]
      have : i + (k - i) = k := by omega
      rw [this]
      exact hv
  cases hl : firstSomeIdx (xs.drop i) with
  | none => rw [hl] at hfirst; cases hfirst
  | some p => rfl

/-- With at least one valid cell, `interpolate → ffill → bfill` leaves no
cell invalid. -/
theorem fillColumn_isSome (xs : List (Option ℚ)) (j : ℕ) (v : ℚ)
    (hj : j < xs.length) (hv : xs.getD j none = some v) :
    ∀ i, i < xs.length → ((fillColumn xs).getD i none).isSome := by
  intro i hi
  unfold fillColumn
  have hyl := interpolateLinear_length xs
  have hzl := ffill_length (interpolateLinear xs)
  have hyj : (interpolateLinear xs).getD j none = some v := by
    rw [interpolateLinear_getD xs j hj]
    exact interpAt_of_some xs j v hv
  set k := max i j with hk
  have hzk : ((ffill (interpolateLinear xs)).getD k none).isSome := by
    apply ffill_isSome_from (interpolateLinear xs) j k v (by omega) (by omega) (by omega) hyj
  exact bfill_isSome_upto (ffill (interpolateLinear xs)) k i (by omega) (by omega) hzk

/-! ### Grid and reindex lemmas (C2, C9) -/

theorem minTs_le (t : ℤ) (ts : List ℤ) :
    minTs t ts ≤ t ∧ ∀ x ∈ ts, minTs t ts ≤ x := by
  unfold minTs
  induction ts generalizing t with
  | nil => simp
  | cons a l ih =>
    obtain ⟨h1, h2⟩ := ih (min t a)
    refine ⟨h1.trans (min_le_left t a), ?_⟩
    intro x hx
    rcases List.mem_cons.mp hx with rfl | hxl
    · exact h1.trans (min_le_right t x)
    · exact h2 x hxl

theorem maxTs_ge (t : ℤ) (ts : List ℤ) :
    t ≤ maxTs t ts ∧ ∀ x ∈ ts, x ≤ maxTs t ts := by
  unfold maxTs
  induction ts generalizing t with
  | nil => simp
  | cons a l ih =>
    obtain ⟨h1, h2⟩ := ih (max t a)
    refine ⟨(le_max_left t a).trans h1, ?_⟩
    intro x hx
    rcases List.mem_cons.mp hx with rfl | hxl
    · exact (le_max_right t x).trans h1
    · exact h2 x hxl

theorem maxTs_mem (t : ℤ) (ts : List ℤ) : maxTs t ts = t ∨ maxTs t ts ∈ ts := by
  unfold maxTs
  induction ts generalizing t with
  | nil => simp
  | cons a l ih =>
    rw [List.foldl_cons]
    rcases ih (max t a) with h | h
    · rcases max_choice t a with hm | hm
      · left; rw [h, hm]
      · right; rw [h, hm]; exact List.mem_cons_self a l
    · right; exact List.mem_cons_of_mem a h

theorem minTs_mem (t : ℤ) (ts : List ℤ) : minTs t ts = t ∨ minTs t ts ∈ ts := by
  unfold minTs
  induction ts generalizing t with
  | nil => simp
  | cons a l ih =>
    rw [List.foldl_cons]
    rcases ih (min t a) with h | h
    · rcases min_choice t a with hm | hm
      · left; rw [h, hm]
      · right; rw [h, hm]; exact List.mem_cons_self a l
    · right; exact List.mem_cons_of_mem a h

theorem find?_ts_of_nodup (P : List PRow) (hnd : (P.map (·.ts)).Nodup)
    (r : PRow) (hr : r ∈ P) : P.find? (fun x => x.ts = r.ts) = some r := by
  induction P with
  | nil => cases hr
  | cons p t ih =>
    simp only [List.map_cons, List.nodup_cons] at hnd
    rcases List.mem_cons.mp hr with rfl | hrt
    · rw [List.find?_cons_of_pos _ (by simp)]
    · have hne : ¬(p.ts = r.ts) := fun h => hnd.1 (h ▸ List.mem_map.mpr ⟨r, hrt, rfl⟩)
      rw [List.find?_cons_of_neg _ (by simpa using hne)]
      exact ih hnd.2 hrt

theorem hourlyGrid_length (s e : ℤ) :
    (hourlyGrid s e).length = ((e - s) / 60 + 1).toNat := by
  simp [hourlyGrid]

theorem cells_getD (P : List PRow) (s e : ℤ) (i : ℕ)
    (h : i < ((e - s) / 60 + 1).toNat) :
    (reindexRows P (hourlyGrid s e)).getD i none =
      P.find? (fun r => r.ts = s + 60 * Int.ofNat i) := by
  unfold reindexRows hourlyGrid
  rw [List.map_map]
  exact getD_map_range _ _ _ _ h

theorem col_getD (cells : List (Option PRow)) (sel : PRow → Option ℚ) (i : ℕ)
    (h : i < cells.length) :
    (cells.map fun c => c.bind sel).getD i none = (cells.getD i none).bind sel := by
  rw [List.getD_eq_getElem?_getD, List.getElem?_map, List.getElem?_eq_getElem h,
    List.getD_eq_getElem?_getD, List.getElem?_eq_getElem h]
  rfl

theorem grid_index_of_ts (a b t : ℤ) (hat : a ≤ t) (htb : t ≤ b)
    (hta : t % 60 = 0) (hba : b % 60 = 0) :
    ∃ i : ℕ, i < ((floorDay b + 23 * 60 - floorDay a) / 60 + 1).toNat ∧
      floorDay a + 60 * Int.ofNat i = t := by
  refine ⟨((t - floorDay a) / 60).toNat, ?_, ?_⟩
  · unfold floorDay; omega
  · unfold floorDay
    simp only [Int.ofNat_eq_coe]
    omega

/-- Riffle count: among `24 * N` consecutive hours, each of the `N` days
gets exactly 24. -/
theorem count_div24 (N k : ℕ) (hkN : k < N) :
    ((List.range (24 * N)).countP fun i => decide (i / 24 = k)) = 24 := by
  induction N generalizing k with
  | zero => omega
  | succ N ih =>
    have h24 : 24 * (N + 1) = 24 * N + 24 := by ring
    rw [h24, List.range_add, List.countP_append, List.countP_map]
    by_cases hk : k < N
    · rw [ih k hk]
      have hz : (List.countP ((fun i => decide (i / 24 = k)) ∘ fun x => 24 * N + x)
          (List.range 24)) = 0 := by
        apply List.countP_eq_zero.mpr
        intro a ha
        have ha24 : a < 24 := List.mem_range.mp ha
        simp only [Function.comp, decide_eq_true_eq]
        omega
      rw [hz]
    · have hk2 : k = N := by omega
      subst hk2
      have hz : ((List.range (24 * k)).countP fun i => decide (i / 24 = k)) = 0 := by
        apply List.countP_eq_zero.mpr
        intro a ha
        have := List.mem_range.mp ha
        simp only [decide_eq_true_eq]
        omega
      have hall : ∀ a ∈ List.range 24,
          ((fun i => decide (i / 24 = k)) ∘ fun x => 24 * k + x) a = true := by
        intro a ha
        have := List.mem_range.mp ha
        simp only [Function.comp, decide_eq_true_eq]
        omega
      rw [hz, List.countP_eq_length.mpr hall, List.length_range]

/-! ### Full-grid output of the Normalizer (C2) -/

theorem reindexRows_length (P : List PRow) (grid : List ℤ) :
    (reindexRows P grid).length = grid.length := by
  simp [reindexRows]

theorem fill_reindex_isSome (P : List PRow) (A B : ℤ) (sel : PRow → Option ℚ)
    (hnd : (P.map (·.ts)).Nodup)
    (hbounds : ∀ r ∈ P, A ≤ r.ts ∧ r.ts ≤ B ∧ r.ts % 60 = 0)
    (hB60 : B % 60 = 0)
    (hex : ∃ r ∈ P, (sel r).isSome)
    (i : ℕ) (hi : i < ((floorDay B + 23 * 60 - floorDay A) / 60 + 1).toNat) :
    ((fillColumn ((reindexRows P (hourlyGrid (floorDay A) (floorDay B + 23 * 60))).map
        fun c => c.bind sel)).getD i none).isSome := by
  obtain ⟨r0, hr0, hsel⟩ := hex
  obtain ⟨hA0, hB0, h60⟩ := hbounds r0 hr0
  obtain ⟨j, hj, hjts⟩ := grid_index_of_ts A B r0.ts hA0 hB0 h60 hB60
  obtain ⟨v, hv⟩ := Option.isSome_iff_exists.mp hsel
  have hcl : (reindexRows P (hourlyGrid (floorDay A) (floorDay B + 23 * 60))).length =
      ((floorDay B + 23 * 60 - floorDay A) / 60 + 1).toNat := by
    rw [reindexRows_length, hourlyGrid_length]
  have hcol : (((reindexRows P (hourlyGrid (floorDay A) (floorDay B + 23 * 60))).map
      fun c => c.bind sel)).getD j none = some v := by
    rw [col_getD _ sel j (by rw [hcl]; exact hj)]
    rw [cells_getD P _ _ j hj, hjts, find?_ts_of_nodup P hnd r0 hr0]
    simpa using hv
  have hlen : (((reindexRows P (hourlyGrid (floorDay A) (floorDay B + 23 * 60))).map
      fun c => c.bind sel)).length =
      ((floorDay B + 23 * 60 - floorDay A) / 60 + 1).toNat := by
    rw [List.length_map, hcl]
  exact fillColumn_isSome _ j v (by rw [hlen]; exact hj) hcol i (by rw [hlen]; exact hi)

theorem normalizeCore_rows (f : NFrame) (P : List PRow) (s e : ℤ) :
    (normalizeCore f P s e).rows = (List.range ((e - s) / 60 + 1).toNat).map fun i =>
      ({ ts := s + 60 * Int.ofNat i,
         temp := if f.hasTemp then
           (fillColumn ((reindexRows P (hourlyGrid s e)).map fun c =>
             c.bind (·.temp))).getD i none else none,
         rain := if f.hasRain then
           (fillColumn ((reindexRows P (hourlyGrid s e)).map fun c =>
             c.bind (·.rain))).getD i none else none,
         wind_speed := if f.hasWind then
           (fillColumn ((reindexRows P (hourlyGrid s e)).map fun c =>
             c.bind (·.wind_speed))).getD i none else none } : ORow) := by
  simp only [normalizeCore, hourlyGrid_length]

theorem normalizeCore_spec (f : NFrame) (P : List PRow) (A B : ℤ)
    (hnd : (P.map (·.ts)).Nodup)
    (hAB : A ≤ B)
    (hbounds : ∀ r ∈ P, A ≤ r.ts ∧ r.ts ≤ B ∧ r.ts % 60 = 0)
    (hB60 : B % 60 = 0) :
    (normalizeCore f P (floorDay A) (floorDay B + 23 * 60)).rows.map (·.ts) =
      hourlyGrid (floorDay A) (floorDay B + 23 * 60) ∧
    (normalizeCore f P (floorDay A) (floorDay B + 23 * 60)).rows.length =
      24 * (B / 1440 - A / 1440 + 1).toNat ∧
    (∀ d : ℤ, A / 1440 ≤ d → d ≤ B / 1440 →
      ((normalizeCore f P (floorDay A) (floorDay B + 23 * 60)).rows.filter
        fun r => decide (r.ts / 1440 = d)).length = 24) ∧
    ((f.hasTemp = true → ∃ r ∈ P, r.temp.isSome) →
     (f.hasRain = true → ∃ r ∈ P, r.rain.isSome) →
     (f.hasWind = true → ∃ r ∈ P, r.wind_speed.isSome) →
     ∀ r ∈ (normalizeCore f P (floorDay A) (floorDay B + 23 * 60)).rows,
       (f.hasTemp = true → r.temp.isSome) ∧ (f.hasRain = true → r.rain.isSome) ∧
       (f.hasWind = true → r.wind_speed.isSome)) := by
  have hn24 : ((floorDay B + 23 * 60 - floorDay A) / 60 + 1).toNat =
      24 * (B / 1440 - A / 1440 + 1).toNat := by
    unfold floorDay
    omega
  refine ⟨?_, ?_, ?_, ?_⟩
  · rw [normalizeCore_rows, List.map_map]
    rfl
  · rw [normalizeCore_rows, List.length_map, List.length_range, hn24]
  · intro d hd1 hd2
    rw [normalizeCore_rows, List.filter_map, List.length_map,
      ← List.countP_eq_length_filter]
    have hgoal2 : List.countP (fun i => decide (i / 24 = (d - A / 1440).toNat))
        (List.range ((floorDay B + 23 * 60 - floorDay A) / 60 + 1).toNat) = 24 := by
      rw [hn24]
      exact count_div24 _ _ (by omega)
    refine Eq.trans (List.countP_congr ?_) hgoal2
    intro i _
    simp only [Function.comp_apply, decide_eq_true_eq, Int.ofNat_eq_coe]
    unfold floorDay
    omega
  · intro htemp hrain hwind r hr
    rw [normalizeCore_rows] at hr
    obtain ⟨i, hi, rfl⟩ := List.mem_map.mp hr
    have hilt := List.mem_range.mp hi
    refine ⟨fun hT => ?_, fun hR => ?_, fun hW => ?_⟩
    · simp only [hT, if_true]
      exact fill_reindex_isSome P A B (·.temp) hnd hbounds hB60 (htemp hT) i hilt
    · simp only [hR, if_true]
      exact fill_reindex_isSome P A B (·.rain) hnd hbounds hB60 (hrain hR) i hilt
    · simp only [hW, if_true]
      exact fill_reindex_isSome P A B (·.wind_speed) hnd hbounds hB60 (hwind hW) i hilt

/-- C2 counterexample fixture: a single record at 00:30 UTC — parseable
timestamp, `temp` column present with a non-null value. -/
def offFrame : NFrame :=
  { hasTemp := true, hasRain := false, hasWind := false,
    rows := [{ ts := some 30, temp := some 20 }] }

/-- C2 counterexample: an accepted input whose timestamp is off the
hourly grid (00:30) loses its value in the reindex — the output is the
24-hour grid but every `temp` cell is null, although the input's present
required column `temp` was non-null. -/
theorem normalizer_offgrid_counterexample :
    (interpolate_to_24h offFrame).map (fun o => o.rows.map (·.temp)) =
        .ok (List.replicate 24 none) ∧
      offFrame.hasTemp = true ∧ ∃ r ∈ offFrame.rows, r.temp = some 20 := by
  refine ⟨?_, rfl, ⟨{ ts := some 30, temp := some 20 }, by simp [offFrame], rfl⟩⟩
  rfl

/-- C2 (amended): for every input accepted by the Normalizer whose parsed
timestamps lie exactly on the hourly grid and are unique, and in which
every present required column has at least one non-null value, the output
is exactly the hourly grid from the floor of the earliest day to the
latest day's start plus 23 hours, with exactly 24 records per covered day
and no null in any present required column. -/
theorem normalizer_full_grid (f : NFrame) (p0 : PRow) (rest : List PRow)
    (hp : parseRows f.rows = p0 :: rest)
    (hcols : (f.hasTemp : Prop) ∨ f.hasRain ∨ f.hasWind)
    (hnd : ((p0 :: rest).map (·.ts)).Nodup)
    (halign : ∀ r ∈ p0 :: rest, r.ts % 60 = 0)
    (htemp : f.hasTemp = true → ∃ r ∈ p0 :: rest, r.temp.isSome)
    (hrain : f.hasRain = true → ∃ r ∈ p0 :: rest, r.rain.isSome)
    (hwind : f.hasWind = true → ∃ r ∈ p0 :: rest, r.wind_speed.isSome) :
    interpolate_to_24h f = .ok (normalizeOk f p0 rest) ∧
    (normalizeOk f p0 rest).rows.map (·.ts) =
      hourlyGrid (floorDay (minTs p0.ts (rest.map (·.ts))))
        (floorDay (maxTs p0.ts (rest.map (·.ts))) + 23 * 60) ∧
    (normalizeOk f p0 rest).rows.length =
      24 * (maxTs p0.ts (rest.map (·.ts)) / 1440
        - minTs p0.ts (rest.map (·.ts)) / 1440 + 1).toNat ∧
    (∀ d : ℤ, minTs p0.ts (rest.map (·.ts)) / 1440 ≤ d →
      d ≤ maxTs p0.ts (rest.map (·.ts)) / 1440 →
      ((normalizeOk f p0 rest).rows.filter fun r => decide (r.ts / 1440 = d)).length = 24) ∧
    ∀ r ∈ (normalizeOk f p0 rest).rows,
      (f.hasTemp = true → r.temp.isSome) ∧ (f.hasRain = true → r.rain.isSome) ∧
      (f.hasWind = true → r.wind_speed.isSome) := by
  have hA := minTs_le p0.ts (rest.map (·.ts))
  have hB := maxTs_ge p0.ts (rest.map (·.ts))
  have hbounds : ∀ r ∈ p0 :: rest,
      minTs p0.ts (rest.map (·.ts)) ≤ r.ts ∧
      r.ts ≤ maxTs p0.ts (rest.map (·.ts)) ∧ r.ts % 60 = 0 := by
    intro r hr
    refine ⟨?_, ?_, halign r hr⟩
    · rcases List.mem_cons.mp hr with rfl | hrt
      · exact hA.1
      · exact hA.2 r.ts (List.mem_map.mpr ⟨r, hrt, rfl⟩)
    · rcases List.mem_cons.mp hr with rfl | hrt
      · exact hB.1
      · exact hB.2 r.ts (List.mem_map.mpr ⟨r, hrt, rfl⟩)
  have hB60 : maxTs p0.ts (rest.map (·.ts)) % 60 = 0 := by
    rcases maxTs_mem p0.ts (rest.map (·.ts)) with h | h
    · rw [h]; exact halign p0 (List.mem_cons_self _ _)
    · obtain ⟨r2, hr2, hts⟩ := List.mem_map.mp h
      rw [← hts]; exact halign r2 (List.mem_cons_of_mem _ hr2)
  have hspec := normalizeCore_spec f (p0 :: rest)
    (minTs p0.ts (rest.map (·.ts))) (maxTs p0.ts (rest.map (·.ts)))
    hnd (hA.1.trans hB.1) hbounds hB60
  exact ⟨interpolate_ok_eq f p0 rest hp hcols hnd, hspec.1, hspec.2.1, hspec.2.2.1,
    hspec.2.2.2 htemp hrain hwind⟩

/-- Fixtures for the full-grid witness: two on-grid records at 00:00 and
02:00 of the same day. -/
def hpRow0 : PRow := { ts := 0, temp := some 10 }

def hpRow1 : PRow := { ts := 120, temp := some 20 }

def hourlyPair : NFrame :=
  { hasTemp := true, hasRain := false, hasWind := false,
    rows := [{ ts := some 0, temp := some 10 }, { ts := some 120, temp := some 20 }] }

theorem normalizer_full_grid_witness :
    parseRows hourlyPair.rows = [hpRow0, hpRow1] ∧
    interpolate_to_24h hourlyPair = .ok (normalizeOk hourlyPair hpRow0 [hpRow1]) ∧
    (normalizeOk hourlyPair hpRow0 [hpRow1]).rows.length = 24 ∧
    ∀ r ∈ (normalizeOk hourlyPair hpRow0 [hpRow1]).rows, r.temp.isSome := by
  have h := normalizer_full_grid hourlyPair hpRow0 [hpRow1] rfl (Or.inl rfl)
    (by decide) (by decide)
    (fun _ => ⟨hpRow0, List.mem_cons_self _ _, rfl⟩)
    (fun hfalse => nomatch hfalse) (fun hfalse => nomatch hfalse)
  refine ⟨rfl, h.1, ?_, ?_⟩
  · rw [h.2.2.1]; decide
  · intro r hr
    exact (h.2.2.2.2 r hr).1 rfl

/-! ### Midpoint interpolation (C9) -/

/-- C9 counterexample fixture: v0 = 10 at 00:15 and v1 = 20 at 01:45; the
midpoint 01:00 lies on the hourly grid but the two points do not. -/
def offPair : NFrame :=
  { hasTemp := true, hasRain := false, hasWind := false,
    rows := [{ ts := some 15, temp := some 10 }, { ts := some 105, temp := some 20 }] }

/-- C9 counterexample: for the two-point series (15 min, 10) and
(105 min, 20) the midpoint (15+105)/2 = 60 falls on the hourly grid, yet
the normalized value there is null, not (10+20)/2 — reindex drops both
off-grid points before interpolation. -/
theorem midpoint_counterexample :
    ((15 : ℤ) + 105) / 2 = 60 ∧
    (interpolate_to_24h offPair).map (fun o => o.rows.map fun r => (r.ts, r.temp)) =
      .ok ((List.range 24).map fun i => ((60 * Int.ofNat i : ℤ), (none : Option ℚ))) :=
  ⟨rfl, rfl⟩

def twoPointFrame (t0 t1 : ℤ) (v0 v1 : ℚ) : NFrame :=
  { hasTemp := true, hasRain := false, hasWind := false,
    rows := [{ ts := some t0, temp := some v0 }, { ts := some t1, temp := some v1 }] }

set_option maxHeartbeats 1000000 in
/-- C9 (amended): for a two-point series whose timestamps are distinct,
ON the hourly grid, and an even number of hours apart (so that the
midpoint also lies on the grid), the normalized value at the midpoint is
exactly (v0+v1)/2. -/
theorem midpoint_exact (t0 t1 : ℤ) (v0 v1 : ℚ)
    (h0 : t0 % 60 = 0) (h1 : t1 % 60 = 0) (hlt : t0 < t1)
    (heven : (t1 - t0) % 120 = 0) :
    ∃ out, interpolate_to_24h (twoPointFrame t0 t1 v0 v1) = .ok out ∧
      ∃ r ∈ out.rows, r.ts = (t0 + t1) / 2 ∧ r.temp = some ((v0 + v1) / 2) := by
  have hnd : (([⟨t0, some v0, none, none⟩, ⟨t1, some v1, none, none⟩] : List PRow).map
      (·.ts)).Nodup := by
    simp
    omega
  have hok := interpolate_ok_eq (twoPointFrame t0 t1 v0 v1)
    ⟨t0, some v0, none, none⟩ [⟨t1, some v1, none, none⟩] rfl (Or.inl rfl) hnd
  refine ⟨_, hok, ?_⟩
  have hmin : minTs (⟨t0, some v0, none, none⟩ : PRow).ts
      (([⟨t1, some v1, none, none⟩] : List PRow).map (·.ts)) = t0 := by
    show List.foldl min t0 [t1] = t0
    rw [List.foldl_cons, List.foldl_nil]
    exact min_eq_left hlt.le
  have hmax : maxTs (⟨t0, some v0, none, none⟩ : PRow).ts
      (([⟨t1, some v1, none, none⟩] : List PRow).map (·.ts)) = t1 := by
    show List.foldl max t0 [t1] = t1
    rw [List.foldl_cons, List.foldl_nil]
    exact max_eq_right hlt.le
  unfold normalizeOk
  rw [hmin, hmax, normalizeCore_rows]
  set s := floorDay t0 with hs
  set e := floorDay t1 + 23 * 60 with he
  set n := ((e - s) / 60 + 1).toNat with hn
  have hsg : s = 1440 * (t0 / 1440) := by rw [hs]; rfl
  have heg : e = 1440 * (t1 / 1440) + 23 * 60 := by rw [he]; rfl
  obtain ⟨k, hk1, hk2⟩ : ∃ k : ℕ, 1 ≤ k ∧ t1 - t0 = 120 * (k : ℤ) :=
    ⟨((t1 - t0) / 120).toNat, by omega, by omega⟩
  obtain ⟨i0, hI0⟩ : ∃ i : ℕ, t0 = s + 60 * (i : ℤ) :=
    ⟨((t0 - s) / 60).toNat, by omega⟩
  have hI1 : t1 = s + 60 * ((i0 + 2 * k : ℕ) : ℤ) := by push_cast; omega
  have hIm : (t0 + t1) / 2 = s + 60 * ((i0 + k : ℕ) : ℤ) := by push_cast; omega
  have hn2k : i0 + 2 * k < n := by omega
  have hcol : ∀ i, i < n →
      (((reindexRows ([⟨t0, some v0, none, none⟩, ⟨t1, some v1, none, none⟩] : List PRow)
        (hourlyGrid s e)).map fun c => c.bind (·.temp))).getD i none =
        (if i = i0 then some v0 else if i = i0 + 2 * k then some v1 else none) := by
    intro i hi
    rw [col_getD _ _ i (by rw [reindexRows_length, hourlyGrid_length]; omega)]
    rw [cells_getD _ s e i (by omega)]
    by_cases hc0 : i = i0
    · subst hc0
      rw [List.find?_cons_of_pos _ (by
        simp only [Int.ofNat_eq_coe, decide_eq_true_eq]
        exact hI0)]
      rw [if_pos rfl]
      rfl
    · by_cases hc1 : i = i0 + 2 * k
      · subst hc1
        rw [List.find?_cons_of_neg _ (by
          simp only [Int.ofNat_eq_coe, decide_eq_true_eq]
          push_cast
          omega)]
        rw [List.find?_cons_of_pos _ (by
          simp only [Int.ofNat_eq_coe, decide_eq_true_eq]
          exact hI1)]
        rw [if_neg (by omega), if_pos rfl]
        rfl
      · rw [List.find?_cons_of_neg _ (by
          simp only [Int.ofNat_eq_coe, decide_eq_true_eq]
          intro hbad
          apply hc0
          omega)]
        rw [List.find?_cons_of_neg _ (by
          simp only [Int.ofNat_eq_coe, decide_eq_true_eq]
          intro hbad
          apply hc1
          have : t1 = s + 60 * (i : ℤ) := hbad
          omega)]
        rw [if_neg hc0, if_neg hc1]
        rfl
  set col := ((reindexRows ([⟨t0, some v0, none, none⟩, ⟨t1, some v1, none, none⟩] : List PRow)
    (hourlyGrid s e)).map fun c => c.bind (·.temp)) with hcoldef
  have hcollen : col.length = n := by
    rw [hcoldef, List.length_map, reindexRows_length, hourlyGrid_length, hn]
  have hmidnone : col.getD (i0 + k) none = none := by
    rw [hcol _ (by omega), if_neg (by omega), if_neg (by omega)]
  have hlast : lastSomeIdx (col.take (i0 + k)) = some (i0, v0) := by
    apply lastSomeIdx_eq
    · rw [List.length_take]; omega
    · rw [getD_take _ _ _ _ (by omega), hcol i0 (by omega), if_pos rfl]
    · intro kk hkk hkk2
      rw [List.length_take] at hkk2
      rw [getD_take _ _ _ _ (by omega), hcol kk (by omega),
        if_neg (by omega), if_neg (by omega)]
  have hfirst : firstSomeIdx (col.drop (i0 + k + 1)) = some (k - 1, v1) := by
    apply firstSomeIdx_eq
    · rw [List.length_drop]; omega
    · rw [getD_drop]
      have hadd : i0 + k + 1 + (k - 1) = i0 + 2 * k := by omega
      rw [hadd, hcol _ (by omega), if_neg (by omega), if_pos rfl]
    · intro j hj
      rw [getD_drop, hcol _ (by omega), if_neg (by omega), if_neg (by omega)]
  have hinterp : interpAt col (i0 + k) = some ((v0 + v1) / 2) := by
    unfold interpAt
    simp only [hmidnone, hlast, hfirst]
    have hadd : i0 + k + 1 + (k - 1) = i0 + 2 * k := by omega
    rw [hadd]
    congr 1
    have hkq : ((k : ℚ)) ≠ 0 := by
      have : (0 : ℚ) < (k : ℚ) := by exact_mod_cast hk1
      exact ne_of_gt this
    push_cast
    field_simp
    ring
  have hfill : (fillColumn col).getD (i0 + k) none = some ((v0 + v1) / 2) := by
    unfold fillColumn
    have hy : (interpolateLinear col).getD (i0 + k) none = some ((v0 + v1) / 2) := by
      rw [interpolateLinear_getD col _ (by omega)]
      exact hinterp
    have hz := ffill_getD_of_some (interpolateLinear col) (i0 + k) _
      (by rw [interpolateLinear_length]; omega) hy
    exact bfill_getD_of_some _ (i0 + k) _
      (by rw [ffill_length, interpolateLinear_length]; omega) hz
  refine ⟨_, List.mem_map.mpr ⟨i0 + k, List.mem_range.mpr (by omega), rfl⟩, ?_, ?_⟩
  · show s + 60 * Int.ofNat (i0 + k) = (t0 + t1) / 2
    simp only [Int.ofNat_eq_coe]
    omega
  · simp only [twoPointFrame]
    exact hfill

theorem midpoint_exact_witness :
    ((0 : ℤ) % 60 = 0 ∧ (120 : ℤ) % 60 = 0 ∧ (0 : ℤ) < 120 ∧
      ((120 : ℤ) - 0) % 120 = 0) ∧
    ∃ out, interpolate_to_24h (twoPointFrame 0 120 10 20) = .ok out ∧
      ∃ r ∈ out.rows, r.ts = ((0 : ℤ) + 120) / 2 ∧
        r.temp = some (((10 : ℚ) + 20) / 2) :=
  ⟨⟨by decide, by decide, by decide, by decide⟩,
   midpoint_exact 0 120 10 20 (by decide) (by decide) (by decide) (by decide)⟩

/-! ### Weighted vs simple average (C4) -/

theorem dedupKeysAux_all_seen : ∀ (l seen : List ℤ), (∀ x ∈ l, x ∈ seen) →
    dedupKeysAux seen l = [] := by
  intro l
  induction l with
  | nil => intro seen _; rfl
  | cons t ts ih =>
    intro seen h
    unfold dedupKeysAux
    rw [if_pos (h t (List.mem_cons_self t ts))]
    exact ih seen fun x hx => h x (List.mem_cons_of_mem t hx)

theorem dedupKeysAux_doubled : ∀ (T : List ℤ), T.Nodup → ∀ (U seen : List ℤ),
    (∀ t ∈ T, t ∉ seen) → (∀ u ∈ U, u ∈ T ∨ u ∈ seen) →
    dedupKeysAux seen (T ++ U) = T := by
  intro T
  induction T with
  | nil =>
    intro _ U seen _ hU
    exact dedupKeysAux_all_seen U seen fun x hx => by
      rcases hU x hx with h | h
      · exact absurd h (List.not_mem_nil x)
      · exact h
  | cons t ts ih =>
    intro hnd U seen hTs hU
    rw [List.cons_append]
    unfold dedupKeysAux
    rw [if_neg (hTs t (List.mem_cons_self t ts))]
    simp only [List.nodup_cons] at hnd
    congr 1
    apply ih hnd.2 U (t :: seen)
    · intro x hx
      intro hmem
      rcases List.mem_cons.mp hmem with rfl | hxs
      · exact hnd.1 hx
      · exact hTs x (List.mem_cons_of_mem t hx) hxs
    · intro u hu
      rcases hU u hu with h | h
      · rcases List.mem_cons.mp h with rfl | hut
        · exact Or.inr (List.mem_cons_self u seen)
        · exact Or.inl hut
      · exact Or.inr (List.mem_cons_of_mem t h)

theorem dedupKeys_doubled (T : List ℤ) (h : T.Nodup) : dedupKeys (T ++ T) = T :=
  dedupKeysAux_doubled T h T [] (fun x _ hc => absurd hc (List.not_mem_nil x))
    (fun _ hu => Or.inl hu)

theorem filter_eq_singleton {α : Type} (tsOf : α → ℤ) (l : List α)
    (hnd : (l.map tsOf).Nodup) (x : α) (hx : x ∈ l) :
    l.filter (fun r => tsOf r = tsOf x) = [x] := by
  induction l with
  | nil => cases hx
  | cons p t ih =>
    simp only [List.map_cons, List.nodup_cons] at hnd
    rcases List.mem_cons.mp hx with rfl | hxt
    · rw [List.filter_cons_of_pos (by simp)]
      have hrest : t.filter (fun r => tsOf r = tsOf x) = [] := by
        apply List.filter_eq_nil_iff.mpr
        intro r hr
        simp only [decide_eq_true_eq]
        intro hc
        exact hnd.1 (hc ▸ List.mem_map.mpr ⟨r, hr, rfl⟩)
      rw [hrest]
    · have hne : ¬(tsOf p = tsOf x) := fun hc =>
        hnd.1 (hc ▸ List.mem_map.mpr ⟨x, hxt, rfl⟩)
      rw [List.filter_cons_of_neg (by simpa using hne)]
      exact ih hnd.2 hxt

theorem filterMap_pairs_fst (results : Results) (rel : Source → ℚ) :
    ∀ l : List Source, l.filterMap (activeHourly results) =
      (l.filterMap fun s => (activeHourly results s).map fun df => (df, rel s)).map
        Prod.fst := by
  intro l
  induction l with
  | nil => rfl
  | cons s t ih =>
    cases h : activeHourly results s with
    | none => simp [List.filterMap_cons, h, ih]
    | some df => simp [List.filterMap_cons, h, ih]

theorem filterMap_pairs_scaled (results : Results) (rel : Source → ℚ) :
    ∀ l : List Source,
      (l.filterMap fun s => (activeHourly results s).map fun df =>
        df.map fun r => (scaleHourly (rel s) r, rel s)) =
      (l.filterMap fun s => (activeHourly results s).map fun df => (df, rel s)).map
        fun p => p.1.map fun r => (scaleHourly p.2 r, p.2) := by
  intro l
  induction l with
  | nil => rfl
  | cons s t ih =>
    cases h : activeHourly results s with
    | none => simp [List.filterMap_cons, h, ih]
    | some df => simp [List.filterMap_cons, h, ih]

theorem filter_eq_singleton_at {α : Type} (tsOf : α → ℤ) (l : List α)
    (hnd : (l.map tsOf).Nodup) (x : α) (hx : x ∈ l) (t : ℤ) (hxt : tsOf x = t) :
    l.filter (fun r => tsOf r = t) = [x] := by
  subst hxt
  exact filter_eq_singleton tsOf l hnd x hx

theorem activeHourly_ne_nil (results : Results) (s : Source) (df : List HRow)
    (h : activeHourly results s = some df) : df ≠ [] := by
  unfold activeHourly at h
  cases hh : (results s).hourly with
  | none => rw [hh] at h; cases h
  | some df0 =>
    rw [hh] at h
    simp only [Option.some_bind] at h
    by_cases he : df0.isEmpty = true
    · rw [if_pos he] at h; cases h
    · rw [if_neg he] at h
      obtain rfl := Option.some.inj h
      exact fun hnil => he (by rw [hnil]; rfl)

theorem sum_map_const {α : Type} (l : List α) (f : α → ℚ) (c : ℚ)
    (h : ∀ a ∈ l, f a = c) : (l.map f).sum = l.length * c := by
  rw [List.map_congr_left h, List.map_const', List.sum_replicate, nsmul_eq_mul]

/-- The fields of the merged hourly series handled by the weighted
strategy (scaled and divided by the weight): everything except
`pressure`, `wind_deg` and `clouds`. -/
def projH (r : HRow) : ℤ × Option ℚ × Option ℚ × Option ℚ × Option ℚ :=
  (r.ts, r.temp, r.rain, r.wind_speed, r.humidity)

/-- C4 (amended): when every reliability score is positive and exactly two
sources contribute hourly frames, with equal non-zero reliability weight,
matching unique timestamps, and no missing values in the weighted-handled
fields (temp, rain, wind_speed, humidity), the "weighted" merge completes
without raising and agrees with the "avg" merge at every timestamp on
those fields. -/
theorem weighted_matches_avg_hourly (rel : Source → ℚ) (results : Results)
    (df1 df2 : List HRow) (w : ℚ)
    (hpos : ∀ s, 0 < rel s)
    (hact : (sourceOrder.filterMap fun s =>
      (activeHourly results s).map fun df => (df, rel s)) = [(df1, w), (df2, w)])
    (hw : w ≠ 0)
    (hts : df1.map (·.ts) = df2.map (·.ts))
    (hnd : (df1.map (·.ts)).Nodup)
    (hfull : ∀ r ∈ df1 ++ df2, r.temp.isSome ∧ r.rain.isSome ∧
      r.wind_speed.isSome ∧ r.humidity.isSome) :
    (merge_sources_weighted rel results).map
        (fun m => (m.hourly).map (List.map projH)) =
      Except.ok (((merge_sources results "avg").hourly).map (List.map projH)) := by
  have hnd2 : (df2.map (·.ts)).Nodup := hts ▸ hnd
  have hne1 : df1 ≠ [] := by
    have hmem : (df1, w) ∈ (sourceOrder.filterMap fun s =>
        (activeHourly results s).map fun df => (df, rel s)) := by
      rw [hact]; exact List.mem_cons_self _ _
    obtain ⟨s, _, hfs⟩ := List.mem_filterMap.mp hmem
    cases hah : activeHourly results s with
    | none => rw [hah] at hfs; cases hfs
    | some df =>
      rw [hah] at hfs
      obtain hdf := Option.some.inj hfs
      have : df = df1 := congrArg Prod.fst hdf
      exact this ▸ activeHourly_ne_nil results s df hah
  have hb : ¬("avg" = "best") := by decide
  have havgdfs : sourceOrder.filterMap (activeHourly results) = [df1, df2] := by
    rw [filterMap_pairs_fst results rel, hact]
    rfl
  have havg : (merge_sources results "avg").hourly = some (groupMeanH (df1 ++ df2)) := by
    simp only [merge_sources, if_neg hb, if_pos rfl, havgdfs]
    simp
  have hwdfs : (sourceOrder.filterMap fun s => (activeHourly results s).map fun df =>
      df.map fun r => (scaleHourly (rel s) r, rel s)) =
      [df1.map fun r => (scaleHourly w r, w), df2.map fun r => (scaleHourly w r, w)] := by
    rw [filterMap_pairs_scaled results rel, hact]
    rfl
  obtain ⟨cur, hok⟩ := merge_weighted_ok rel results hpos
  have hcase : (if (sourceOrder.filterMap fun s =>
        (activeHourly results s).map fun df =>
          df.map fun r => (scaleHourly (rel s) r, rel s)).isEmpty then none
      else some (divideHourly (groupSumH ((sourceOrder.filterMap fun s =>
        (activeHourly results s).map fun df =>
          df.map fun r => (scaleHourly (rel s) r, rel s)).flatten)))) =
      some (divideHourly (groupSumH ((df1.map fun r => (scaleHourly w r, w)) ++
        (df2.map fun r => (scaleHourly w r, w))))) := by
    rw [hwdfs]
    simp
  rw [hok, hcase, havg]
  simp only [Except.map, Option.map_some', Except.ok.injEq, Option.some.injEq]
  -- key lists
  have hsc1 : (df1.map fun r => (scaleHourly w r, w)).map (fun p => p.1.ts) =
      df1.map (·.ts) := by
    rw [List.map_map]
    rfl
  have hsc2 : (df2.map fun r => (scaleHourly w r, w)).map (fun p => p.1.ts) =
      df2.map (·.ts) := by
    rw [List.map_map]
    rfl
  have hkeysum : ((df1.map fun r => (scaleHourly w r, w)) ++
      (df2.map fun r => (scaleHourly w r, w))).map (fun p => p.1.ts) =
      df1.map (·.ts) ++ df1.map (·.ts) := by
    rw [List.map_append, hsc1, hsc2, ← hts]
  have hkeymean : (df1 ++ df2).map (·.ts) = df1.map (·.ts) ++ df1.map (·.ts) := by
    rw [List.map_append, ← hts]
  -- per-key groups
  have hgroupS : ∀ t ∈ df1.map (·.ts), ∀ r1 ∈ df1, ∀ r2 ∈ df2, r1.ts = t → r2.ts = t →
      ((df1.map fun r => (scaleHourly w r, w)) ++
        (df2.map fun r => (scaleHourly w r, w))).filter (fun p => p.1.ts = t) =
      [(scaleHourly w r1, w), (scaleHourly w r2, w)] := by
    intro t _ r1 hr1 r2 hr2 ht1 ht2
    rw [List.filter_append]
    rw [filter_eq_singleton_at (fun p => p.1.ts) _ (by rw [hsc1]; exact hnd)
      (scaleHourly w r1, w) (List.mem_map.mpr ⟨r1, hr1, rfl⟩) t ht1]
    rw [filter_eq_singleton_at (fun p => p.1.ts) _ (by rw [hsc2]; exact hnd2)
      (scaleHourly w r2, w) (List.mem_map.mpr ⟨r2, hr2, rfl⟩) t ht2]
    rfl
  have hgroupM : ∀ t ∈ df1.map (·.ts), ∀ r1 ∈ df1, ∀ r2 ∈ df2, r1.ts = t → r2.ts = t →
      (df1 ++ df2).filter (fun r => r.ts = t) = [r1, r2] := by
    intro t _ r1 hr1 r2 hr2 ht1 ht2
    rw [List.filter_append]
    rw [filter_eq_singleton_at (·.ts) df1 hnd r1 hr1 t ht1]
    rw [filter_eq_singleton_at (·.ts) df2 hnd2 r2 hr2 t ht2]
    rfl
  have hpick : ∀ t ∈ df1.map (·.ts), ∃ r1 ∈ df1, ∃ r2 ∈ df2, r1.ts = t ∧ r2.ts = t := by
    intro t ht
    obtain ⟨r1, hr1, hts1⟩ := List.mem_map.mp ht
    obtain ⟨r2, hr2, hts2⟩ := List.mem_map.mp (by rw [← hts] at *; exact hts ▸ ht :
      t ∈ df2.map (·.ts))
    exact ⟨r1, hr1, r2, hr2, hts1, hts2⟩
  -- the global weight sum is nonzero
  have hwsum : ((groupSumH ((df1.map fun r => (scaleHourly w r, w)) ++
      (df2.map fun r => (scaleHourly w r, w)))).map (·.weight)).sum =
      (df1.map (·.ts)).length * (w + w) := by
    unfold groupSumH
    rw [hkeysum, dedupKeys_doubled _ hnd, List.map_map]
    apply sum_map_const
    intro t ht
    obtain ⟨r1, hr1, r2, hr2, ht1, ht2⟩ := hpick t ht
    simp only [Function.comp]
    rw [hgroupS t ht r1 hr1 r2 hr2 ht1 ht2]
    simp
  have hnzero : ¬(((groupSumH ((df1.map fun r => (scaleHourly w r, w)) ++
      (df2.map fun r => (scaleHourly w r, w)))).map (·.weight)).sum = 0) := by
    rw [hwsum]
    apply mul_ne_zero
    · simp only [ne_eq, Nat.cast_eq_zero, List.length_eq_zero, List.map_eq_nil_iff]
      exact hne1
    · intro hc
      apply hw
      linarith
  unfold divideHourly
  rw [if_neg hnzero]
  unfold groupSumH groupMeanH
  rw [hkeysum, hkeymean, dedupKeys_doubled _ hnd]
  simp only [List.map_map]
  apply List.map_congr_left
  intro r0 hr0
  have htmem : r0.ts ∈ df1.map (·.ts) := List.mem_map.mpr ⟨r0, hr0, rfl⟩
  obtain ⟨r1, hr1, r2, hr2, ht1, ht2⟩ := hpick r0.ts htmem
  obtain ⟨a1, ha1⟩ := Option.isSome_iff_exists.mp (hfull r1 (List.mem_append_left _ hr1)).1
  obtain ⟨b1, hb1⟩ := Option.isSome_iff_exists.mp (hfull r1 (List.mem_append_left _ hr1)).2.1
  obtain ⟨c1, hc1⟩ := Option.isSome_iff_exists.mp (hfull r1 (List.mem_append_left _ hr1)).2.2.1
  obtain ⟨d1, hd1⟩ := Option.isSome_iff_exists.mp (hfull r1 (List.mem_append_left _ hr1)).2.2.2
  obtain ⟨a2, ha2⟩ := Option.isSome_iff_exists.mp (hfull r2 (List.mem_append_right _ hr2)).1
  obtain ⟨b2, hb2⟩ := Option.isSome_iff_exists.mp (hfull r2 (List.mem_append_right _ hr2)).2.1
  obtain ⟨c2, hc2⟩ := Option.isSome_iff_exists.mp (hfull r2 (List.mem_append_right _ hr2)).2.2.1
  obtain ⟨d2, hd2⟩ := Option.isSome_iff_exists.mp (hfull r2 (List.mem_append_right _ hr2)).2.2.2
  simp only [Function.comp]
  rw [hgroupS r0.ts htmem r1 hr1 r2 hr2 ht1 ht2, hgroupM r0.ts htmem r1 hr1 r2 hr2 ht1 ht2]
  have h2w : w + w ≠ 0 := fun hc => hw (by linarith)
  simp only [projH, divCell, scaleHourly, List.filterMap_cons, List.filterMap_nil,
    List.map_cons, List.map_nil, List.sum_cons, List.sum_nil, add_zero, colMean, meanOpt,
    ha1, ha2, hb1, hb2, hc1, hc2, hd1, hd2, Option.map_some', if_neg h2w]
  simp only [List.isEmpty_cons, List.length_cons, List.length_nil]
  norm_num
  constructor
  · field_simp
    ring
  constructor
  · field_simp
    ring
  constructor
  · field_simp
    ring
  · field_simp
    ring

/-- Equal reliability weight for every source. -/
def eqRel : Source → ℚ := fun _ => 1

/-- C4 counterexample rows: the same timestamp from two sources, with
openmeteo's temp missing. -/
def cexRow1 : HRow :=
  { ts := 0, temp := some 10, humidity := some 50, pressure := some 100,
    wind_speed := some 1, rain := some 0 }

def cexRow2 : HRow :=
  { ts := 0, temp := none, humidity := some 60, pressure := some 200,
    wind_speed := some 3, rain := some 0 }

def cex4Results : Results := fun s =>
  match s with
  | .weatherapi => { hourly := some [cexRow1] }
  | .openmeteo => { hourly := some [cexRow2] }
  | .openweather => {}

/-- C4 counterexample: two sources with equal positive weight 1 and
matching timestamps, yet "weighted" and "avg" disagree.  Weighted temp is
5 — the group's temp sum 10 is divided by the summed weight 2 although
only one source reported a temp — while avg temp is the mean 10; and
weighted pressure is the plain sum 300 (pressure is never divided), while
avg pressure is the mean 150. -/
theorem weighted_vs_avg_counterexample :
    ((merge_sources_weighted eqRel cex4Results).map fun m => (m.hourly).map
        (List.map fun r => (r.ts, r.temp, r.pressure))) =
      Except.ok (some [((0 : ℤ), some (5 : ℚ), some (300 : ℚ))]) ∧
    ((merge_sources cex4Results "avg").hourly).map
        (List.map fun r => (r.ts, r.temp, r.pressure)) =
      some [((0 : ℤ), some (10 : ℚ), some (150 : ℚ))] ∧
    ((merge_sources_weighted eqRel cex4Results).map fun m => (m.hourly).map
        (List.map fun r => (r.ts, r.temp, r.pressure))) ≠
      Except.ok (((merge_sources cex4Results "avg").hourly).map
        (List.map fun r => (r.ts, r.temp, r.pressure))) := by
  have h1 : ((merge_sources_weighted eqRel cex4Results).map fun m => (m.hourly).map
        (List.map fun r => (r.ts, r.temp, r.pressure))) =
      Except.ok (some [((0 : ℤ), some (5 : ℚ), some (300 : ℚ))]) := by
    obtain ⟨cur, hok⟩ := merge_weighted_ok eqRel cex4Results (fun _ => one_pos)
    rw [hok]
    have hdfs : (sourceOrder.filterMap fun s =>
        (activeHourly cex4Results s).map fun df =>
          df.map fun r => (scaleHourly (eqRel s) r, eqRel s)) =
        [[(scaleHourly 1 cexRow1, 1)], [(scaleHourly 1 cexRow2, 1)]] := rfl
    rw [hdfs]
    simp only [except_map_ok, Except.ok.injEq]
    norm_num [scaleHourly, cexRow1, cexRow2, groupSumH, dedupKeys, dedupKeysAux,
      divideHourly, divCell, hsumToHRow, List.flatten, List.filterMap_cons,
      List.filterMap_nil]
  have h2 : ((merge_sources cex4Results "avg").hourly).map
        (List.map fun r => (r.ts, r.temp, r.pressure)) =
      some [((0 : ℤ), some (10 : ℚ), some (150 : ℚ))] := by
    simp [merge_sources, cex4Results, cexRow1, cexRow2, sourceOrder, activeHourly,
      groupMeanH, dedupKeys, dedupKeysAux, colMean, meanOpt, collectAvg, optToList]
    norm_num
  refine ⟨h1, h2, ?_⟩
  rw [h1, h2]
  simp only [ne_eq, Except.ok.injEq, Option.some.injEq, List.cons.injEq, Prod.mk.injEq]
  norm_num

/-- C4 witness rows: matching timestamps, all handled fields present. -/
def witRow1 : HRow :=
  { ts := 0, temp := some 10, humidity := some 50, wind_speed := some 1, rain := some 2 }

def witRow2 : HRow :=
  { ts := 0, temp := some 20, humidity := some 60, wind_speed := some 3, rain := some 4 }

def wit4Results : Results := fun s =>
  match s with
  | .weatherapi => { hourly := some [witRow1] }
  | .openmeteo => { hourly := some [witRow2] }
  | .openweather => {}

/-- C4 witness: the amended equivalence applied to two full single-row
frames of equal positive weight 1 at timestamp 0. -/
theorem weighted_matches_avg_hourly_witness :
    (0 : ℚ) < 1 ∧ (1 : ℚ) ≠ 0 ∧
    [witRow1].map (fun r => r.ts) = [witRow2].map (fun r => r.ts) ∧
    ([witRow1].map (fun r => r.ts)).Nodup ∧
    (merge_sources_weighted eqRel wit4Results).map
        (fun m => (m.hourly).map (List.map projH)) =
      Except.ok (((merge_sources wit4Results "avg").hourly).map (List.map projH)) :=
  ⟨one_pos, one_ne_zero, rfl, by decide,
   weighted_matches_avg_hourly eqRel wit4Results [witRow1] [witRow2] 1 (fun _ => one_pos)
     rfl one_ne_zero rfl (by decide) (by decide)⟩

end WeatherPro
